import Mathlib

/-!
# Snake (`src/snake/script.js`): a shallow embedding and its properties

The script keeps its game in top-level variables (`snake`, `food`, `direction`,
`score`, `isGameOver`, `isPaused`) next to a `settings` object.  Here the
variables are the fields of `GameState`, the settings are a `Settings` value,
and every function of the script that touches them is a function from state to
state.

`placeFood` draws from `Math.random()` in a `while` loop.  A draw is a double in
`[0, 1)` (`Sample`), and its product with `gridSize` is rounded as the double
multiplication rounds it (`roundDouble`) before the floor is taken.  The draws are an
explicit list of `Sample`s consumed from the front, two per loop iteration; the
functions that may reach `placeFood` return `none` when the list is used up
before the loop has found a valid position (the loop has not returned on these
draws) and otherwise the new state with the draws that are left.

The score label and the interval timer are not part of the game state and are
left out; of the canvas drawing only the colours of the snake segments are kept
(`lerp`, `draw`).
-/

namespace Snake

/-! ## Data -/

/-- The JS objects of shape `{x, y}`: a grid position, or a heading. -/
structure Cell where
  x : Int
  y : Int
deriving DecidableEq

/-- The `settings` object (script lines 2-12). -/
structure Settings where
  gridSize : Int
  tileSize : Int
  gameSpeed : Int
  headColor : String
  tailColor : String
  foodColor : String
  bgColor : String
  wallsAreSolid : Bool
  zenMode : Bool
deriving DecidableEq

/-- The game variables (script lines 53-59). -/
structure GameState where
  snake : List Cell
  food : Cell
  direction : Cell
  score : Int
  isGameOver : Bool
  isPaused : Bool
deriving DecidableEq

/-- One value of `Math.random()`: a double in `[0, 1)`, that is `num / 2 ^ exp` with a
significand `num` of at most 53 bits and an exponent down to that of the least subnormal. -/
structure Sample where
  num : Nat
  exp : Nat
  significand : num < 2 ^ 53
  lt : num < 2 ^ exp
  range : exp ≤ 1074
deriving DecidableEq

/-- The values the settings menu holds when it is saved (script lines 256-262):
the parsed value of the checked difficulty radio, the two check boxes and the
four colour inputs. -/
structure MenuForm where
  difficulty : Int
  walls : Bool
  zen : Bool
  head : String
  tail : String
  food : String
  bg : String
deriving DecidableEq

/-! ## The functions of the script -/

/-- The number of low bits that `n` has beyond 53: the halvings that bring `n` below
`2 ^ 53` (`fuel` bounds the search and `n` itself is enough). -/
def excessBits : Nat → Nat → Nat
  | 0, _ => 0
  | fuel + 1, n => if n < 2 ^ 53 then 0 else excessBits fuel (n / 2) + 1

/-- The rounding of a double operation, on a natural number standing for the exact result
scaled by a power of two: `n` is kept when it has at most 53 bits, and is otherwise rounded to
the nearest number of 53 significant bits, a tie going to the even significand. -/
def roundDouble (n : Nat) : Nat :=
  let shift := excessBits n n
  let q := n / 2 ^ shift
  let rem := n % 2 ^ shift
  let half := 2 ^ (shift - 1)
  if shift = 0 then n
  else if rem < half then q * 2 ^ shift
  else if rem = half ∧ q % 2 = 0 then q * 2 ^ shift
  else (q + 1) * 2 ^ shift

/-- The expression `Math.floor(Math.random() * settings.gridSize)` (lines 219-220) for the
draw `r`: the exact product `num * |gridSize| / 2 ^ exp` is rounded to a double, takes the sign
of `gridSize`, and is floored.  (`gridSize` is an integer held in a double, as every integer of
at most 53 bits is; the product is below it in size and at least `2 ^ -1074` apart from zero
when it is not zero, so it neither overflows nor underflows.) -/
def randomIndex (r : Sample) (gridSize : Int) : Int :=
  (Int.sign gridSize * (roundDouble (r.num * gridSize.natAbs) : Int)) /
    ((2 ^ r.exp : Nat) : Int)

/-- The comparison `a.x === b.x && a.y === b.y` (lines 166, 175, 222). -/
def sameCell (a b : Cell) : Bool :=
  a.x == b.x && a.y == b.y

/-- The solid-wall test of line 153. -/
def outsideGrid (gridSize : Int) (head : Cell) : Bool :=
  decide (head.x < 0) || decide (head.x ≥ gridSize) ||
    decide (head.y < 0) || decide (head.y ≥ gridSize)

/-- The four assignments of lines 158-161, in their order. -/
def wrapHead (gridSize : Int) (head : Cell) : Cell :=
  let head := if head.x < 0 then { head with x := gridSize - 1 } else head
  let head := if head.x ≥ gridSize then { head with x := 0 } else head
  let head := if head.y < 0 then { head with y := gridSize - 1 } else head
  let head := if head.y ≥ gridSize then { head with y := 0 } else head
  head

/-- The loop of lines 165-170: it starts at index 1, so the cell at index 0 is not
compared. -/
def hitsBody (head : Cell) (snake : List Cell) : Bool :=
  (snake.drop 1).any (fun segment => sameCell head segment)

/-- The function `placeFood` (lines 214-225).  Each iteration of the `while` loop takes two
draws; the loop goes on while the drawn position is on the snake. -/
def placeFood (cfg : Settings) : List Sample → GameState → Option (GameState × List Sample)
  | rx :: ry :: rest, st =>
    let newFoodPosition : Cell :=
      { x := randomIndex rx cfg.gridSize, y := randomIndex ry cfg.gridSize }
    let validPosition := !st.snake.any (fun segment => sameCell segment newFoodPosition)
    if validPosition then some ({ st with food := newFoodPosition }, rest)
    else placeFood cfg rest st
  | _, _ => none

/-- The function `update` (lines 147-182).

With an empty `snake` the script reads `snake[0]` as `undefined`, so both coordinates of
`head` are `NaN`: every comparison of lines 153-161 and 175 is false, the loop of line 165
has no iteration, and the cell pushed by `unshift` is removed again by `pop`.  The state is
left as it was, which is the first case below. -/
def update (cfg : Settings) (rs : List Sample) (st : GameState) :
    Option (GameState × List Sample) :=
  match st.snake with
  | [] => some (st, rs)
  | segment0 :: _ =>
    let head : Cell := { x := segment0.x + st.direction.x, y := segment0.y + st.direction.y }
    if cfg.wallsAreSolid && outsideGrid cfg.gridSize head then
      some (if !cfg.zenMode then { st with isGameOver := true } else st, rs)
    else
      let head := if cfg.wallsAreSolid then head else wrapHead cfg.gridSize head
      if !cfg.zenMode && hitsBody head st.snake then
        some ({ st with isGameOver := true }, rs)
      else
        let st := { st with snake := head :: st.snake }
        if sameCell head st.food then
          placeFood cfg rs { st with score := st.score + 1 }
        else
          some ({ st with snake := st.snake.dropLast }, rs)

/-- The function `resetGame` (lines 78-98), one assignment after the other. -/
def resetGame (cfg : Settings) (rs : List Sample) (st : GameState) :
    Option (GameState × List Sample) :=
  let st := { st with snake := [] }
  let startX := cfg.gridSize / 2
  let startY := cfg.gridSize / 2
  let st := { st with snake := st.snake ++ [Cell.mk startX startY] }
  let st := { st with direction := { x := 1, y := 0 } }
  let st := { st with score := 0 }
  let st := { st with isGameOver := false }
  let st := { st with isPaused := false }
  placeFood cfg rs st

/-- The function `mainGameLoop` (lines 103-127): the state part of one timer tick. -/
def mainGameLoop (cfg : Settings) (rs : List Sample) (st : GameState) :
    Option (GameState × List Sample) :=
  if st.isGameOver then some (st, rs)
  else if st.isPaused then some (st, rs)
  else update cfg rs st

/-- The function `togglePause` (lines 230-233). -/
def togglePause (st : GameState) : GameState :=
  if st.isGameOver then st else { st with isPaused := !st.isPaused }

/-- The function `saveSettings` (lines 255-265): the menu values replace seven settings,
`gridSize` and `tileSize` stay, and the game is reset under the new settings. -/
def saveSettings (form : MenuForm) (cfg : Settings) (rs : List Sample) (st : GameState) :
    Option (Settings × GameState × List Sample) :=
  let cfg := { cfg with gameSpeed := form.difficulty }
  let cfg := { cfg with wallsAreSolid := form.walls }
  let cfg := { cfg with zenMode := form.zen }
  let cfg := { cfg with headColor := form.head }
  let cfg := { cfg with tailColor := form.tail }
  let cfg := { cfg with foodColor := form.food }
  let cfg := { cfg with bgColor := form.bg }
  (resetGame cfg rs st).map (fun r => (cfg, r.1, r.2))

/-- The function `handleKeyDown` (lines 270-295) for the event key `key`. -/
def handleKeyDown (cfg : Settings) (rs : List Sample) (key : String) (st : GameState) :
    Option (GameState × List Sample) :=
  if st.isGameOver && key == " " then resetGame cfg rs st
  else if key == "p" || key == "P" || key == "Escape" then some (togglePause st, rs)
  else if st.isPaused || st.isGameOver then some (st, rs)
  else
    let goingUp := st.direction.y == -1
    let goingDown := st.direction.y == 1
    let goingLeft := st.direction.x == -1
    let goingRight := st.direction.x == 1
    if (key == "ArrowUp" || key == "w") && !goingDown then
      some ({ st with direction := { x := 0, y := -1 } }, rs)
    else if (key == "ArrowDown" || key == "s") && !goingUp then
      some ({ st with direction := { x := 0, y := 1 } }, rs)
    else if (key == "ArrowLeft" || key == "a") && !goingRight then
      some ({ st with direction := { x := -1, y := 0 } }, rs)
    else if (key == "ArrowRight" || key == "d") && !goingLeft then
      some ({ st with direction := { x := 1, y := 0 } }, rs)
    else some (st, rs)

/-! ## Vocabulary of the properties -/

/-- The value `update` holds in `head` after the boundary handling of lines 152-162, for a
snake whose first cell is `segment0`, when the wall test of line 153 has not returned. -/
def newHead (cfg : Settings) (direction segment0 : Cell) : Cell :=
  let head : Cell := { x := segment0.x + direction.x, y := segment0.y + direction.y }
  if cfg.wallsAreSolid then head else wrapHead cfg.gridSize head

/-- The four headings of the game. -/
def UnitHeading (d : Cell) : Prop :=
  d = Cell.mk 1 0 ∨ d = Cell.mk (-1) 0 ∨ d = Cell.mk 0 1 ∨ d = Cell.mk 0 (-1)

instance (d : Cell) : Decidable (UnitHeading d) := by
  unfold UnitHeading
  infer_instance

/-- The movement keys `handleKeyDown` compares the event key with (lines 291-294), each with
the heading it asks for. -/
def movementKeys : List (String × Cell) :=
  [("ArrowUp", Cell.mk 0 (-1)), ("w", Cell.mk 0 (-1)),
   ("ArrowDown", Cell.mk 0 1), ("s", Cell.mk 0 1),
   ("ArrowLeft", Cell.mk (-1) 0), ("a", Cell.mk (-1) 0),
   ("ArrowRight", Cell.mk 1 0), ("d", Cell.mk 1 0)]

/-- The settings the script starts with (lines 2-12). -/
def defaultSettings : Settings :=
  { gridSize := 20, tileSize := 20, gameSpeed := 150,
    headColor := "#00AA00", tailColor := "#00FF00", foodColor := "#FF0000",
    bgColor := "#000000", wallsAreSolid := true, zenMode := false }

/-- A running game on the default grid: one cell at (10,10), heading right, food at (5,5). -/
def startState : GameState :=
  { snake := [Cell.mk 10 10], food := Cell.mk 5 5, direction := Cell.mk 1 0, score := 0,
    isGameOver := false, isPaused := false }

/-- A draw that gives the index `num` on the grid of size 20: the least multiple of `1 / 256`
that is at least `num / 20`. -/
def draw20 (num : Nat) (h : num < 20) : Sample :=
  { num := (num * 256 + 19) / 20, exp := 8, significand := by omega, lt := by omega,
    range := by omega }

/-- A running snake of four cells whose head (5,5), heading right, is about to step on its own
last cell (6,5). -/
def coiledState : GameState :=
  { startState with snake := [Cell.mk 5 5, Cell.mk 5 6, Cell.mk 6 6, Cell.mk 6 5] }

/-- A running snake of two cells, head (10,10) and tail (9,10), heading right. -/
def twoCellState : GameState :=
  { startState with snake := [Cell.mk 10 10, Cell.mk 9 10] }

/-- The default settings with zen mode on (the walls stay solid). -/
def zenSettings : Settings :=
  { defaultSettings with zenMode := true }

/-- The draw `Math.random() = 0`. -/
def zeroDraw : Sample :=
  { num := 0, exp := 0, significand := by decide, lt := by decide, range := by decide }

/-- A draw that gives the index `num` on a grid of size `den`, for `0 ≤ num < den ≤ 2 ^ 26`: the
least multiple of `1 / 2 ^ 26` that is at least `num / den`. -/
def drawOf (num den : Int) : Sample :=
  { num := min ((num.toNat * 2 ^ 26 + den.toNat - 1) / den.toNat) (2 ^ 26 - 1)
    exp := 26
    significand := lt_of_le_of_lt (Nat.min_le_right _ _) (by decide)
    lt := lt_of_le_of_lt (Nat.min_le_right _ _) (by decide)
    range := by decide }

/-- The double nearest to 0.95, `8556839292003942 / 2 ^ 53`, a little below 0.95: its exact
product with 20 is below 19 and the double product is 19. -/
def nearly95 : Sample :=
  { num := 8556839292003942, exp := 53, significand := by decide, lt := by decide,
    range := by decide }

/-- The values of the menu when it is saved with the hard speed, open walls and zen mode. -/
def hardForm : MenuForm :=
  { difficulty := 100, walls := false, zen := true, head := "#112233", tail := "#445566",
    food := "#778899", bg := "#FFFFFF" }

/-- A game that is over, with a long snake and a score. -/
def lostState : GameState :=
  { snake := [Cell.mk 5 5, Cell.mk 5 6, Cell.mk 6 6, Cell.mk 6 5], food := Cell.mk 2 2,
    direction := Cell.mk 0 (-1), score := 3, isGameOver := true, isPaused := false }

/-! ## Rendering: the colour of each segment -/

/-- The objects `{r, g, b}` that `hexToRgb` returns (lines 23-27), as held in
`START_COLOR_RGB` and `END_COLOR_RGB`. -/
structure Rgb where
  r : Int
  g : Int
  b : Int
deriving DecidableEq

/-- The function `lerp` (lines 29-31): `Math.floor(start + (end - start) * amount)`, with the
number `amount` a rational and the arithmetic exact. -/
def lerp (start endValue : Int) (amount : ℚ) : Int :=
  Int.floor ((start : ℚ) + ((endValue : ℚ) - (start : ℚ)) * amount)

/-- The value of `percentage` in `draw` (line 194) for the segment of index `i`. -/
def percentage (snakeLength i : Nat) : ℚ :=
  if snakeLength = 1 then 0 else (i : ℚ) / ((snakeLength : ℚ) - 1)

/-- The snake part of `draw` (lines 191-198): the colours `(r, g, b)` put in `fillStyle` for the
segments of index `0`, ..., `snake.length - 1`, in this order. -/
def draw (startColor endColor : Rgb) (snake : List Cell) : List Rgb :=
  let snakeLength := snake.length
  (List.range snakeLength).map (fun i =>
    let percentage := percentage snakeLength i
    { r := lerp startColor.r endColor.r percentage,
      g := lerp startColor.g endColor.g percentage,
      b := lerp startColor.b endColor.b percentage })

/-! ## Runs of the game -/

/-- What the browser can deliver to the script once it is loaded: a timer tick
(`mainGameLoop`), a key (`handleKeyDown`) or a click on the save button (`saveSettings`). -/
inductive Event where
  | tick : Event
  | key : String → Event
  | save : MenuForm → Event
deriving DecidableEq

/-- The handler of one event, on the settings and the game variables. -/
def step (ev : Event) (cfg : Settings) (rs : List Sample) (st : GameState) :
    Option (Settings × GameState × List Sample) :=
  match ev with
  | Event.tick => (mainGameLoop cfg rs st).map (fun r => (cfg, r.1, r.2))
  | Event.key k => (handleKeyDown cfg rs k st).map (fun r => (cfg, r.1, r.2))
  | Event.save form => saveSettings form cfg rs st

/-- The handlers of a sequence of events, one after the other; the draws left by one handler
go to the next. -/
def run : List Event → Settings → List Sample → GameState →
    Option (Settings × GameState × List Sample)
  | [], cfg, rs, st => some (cfg, st, rs)
  | ev :: evs, cfg, rs, st =>
    match step ev cfg rs st with
    | none => none
    | some r => run evs r.1 r.2.2 r.2.1

/-- The script from its load on: the call `resetGame()` of line 303, then the events.  The
variables before that call are `st0`; `resetGame` overwrites all of them. -/
def play (cfg : Settings) (rs : List Sample) (st0 : GameState) (evs : List Event) :
    Option (Settings × GameState × List Sample) :=
  match resetGame cfg rs st0 with
  | none => none
  | some r => run evs cfg r.2 r.1

/-- The keys `handleKeyDown` compares the event key with (lines 273, 279, 291-294). -/
def recognisedKeys : List String :=
  ["ArrowUp", "w", "ArrowDown", "s", "ArrowLeft", "a", "ArrowRight", "d",
   "p", "P", "Escape", " "]

/-- The pause keys of line 279. -/
def pauseKeys : List String :=
  ["p", "P", "Escape"]

/-- A paused game: the start state with `isPaused` set. -/
def pausedState : GameState :=
  { startState with isPaused := true }

/-- A game played from the load of the script: the food is drawn at (11,10), the first tick eats
it and the next food is drawn at (3,7); then the game is paused, ticks once, is resumed, turns
down and ticks. -/
def sampleEvents : List Event :=
  [Event.tick, Event.key "p", Event.tick, Event.key "Escape", Event.key "s", Event.tick]

/-- The draws of the sample game: (11,10) for `resetGame`, (3,7) for the first tick. -/
def sampleDraws : List Sample :=
  [draw20 11 (by decide), draw20 10 (by decide), draw20 3 (by decide), draw20 7 (by decide)]

/-- The state the sample game ends in. -/
def sampleEnd : GameState :=
  { snake := [Cell.mk 11 11, Cell.mk 11 10], food := Cell.mk 3 7, direction := Cell.mk 0 1,
    score := 1, isGameOver := false, isPaused := false }

/-- The cell `c` is inside the grid: `0 ≤ x, y < gridSize`. -/
def InGrid (gridSize : Int) (c : Cell) : Prop :=
  (0 ≤ c.x ∧ c.x < gridSize) ∧ (0 ≤ c.y ∧ c.y < gridSize)

instance (gridSize : Int) (c : Cell) : Decidable (InGrid gridSize c) := by
  unfold InGrid
  infer_instance

/-! ## Lemmas on the pieces of the script -/

theorem sameCell_eq_true_iff (a b : Cell) : sameCell a b = true ↔ a = b := by
  cases a; cases b; simp [sameCell]

theorem sameCell_eq_false_iff (a b : Cell) : sameCell a b = false ↔ a ≠ b := by
  rw [Ne, ← sameCell_eq_true_iff]; simp

/-- The halvings counted by `excessBits` leave at most 53 bits, and exactly 53 when there
was something to remove. -/
theorem excessBits_spec : ∀ (fuel n : Nat), n ≤ fuel →
    n / 2 ^ excessBits fuel n < 2 ^ 53 ∧
    (2 ^ 53 ≤ n → 1 ≤ excessBits fuel n ∧ 2 ^ 52 ≤ n / 2 ^ excessBits fuel n)
  | 0, n, h => by
    have hn : n = 0 := by omega
    subst hn
    simp [excessBits]
  | fuel + 1, n, h => by
    unfold excessBits
    split_ifs with hlt
    · simp only [pow_zero, Nat.div_one]
      exact ⟨hlt, fun h2 => absurd hlt (by omega)⟩
    · have hn : 2 ^ 53 ≤ n := by omega
      have hhalf : n / 2 ≤ fuel := by
        have : 0 < n := lt_of_lt_of_le (by decide) hn
        omega
      obtain ⟨h1, h2⟩ := excessBits_spec fuel (n / 2) hhalf
      have hdiv : n / 2 ^ (excessBits fuel (n / 2) + 1) = n / 2 / 2 ^ excessBits fuel (n / 2) := by
        rw [pow_succ, mul_comm, Nat.div_div_eq_div_mul]
      rw [hdiv]
      refine ⟨h1, fun _ => ⟨by omega, ?_⟩⟩
      by_cases hbig : 2 ^ 53 ≤ n / 2
      · exact (h2 hbig).2
      · have hz : excessBits fuel (n / 2) = 0 := by
          cases fuel with
          | zero => rfl
          | succ f =>
            unfold excessBits
            rw [if_pos (not_le.mp hbig)]
        rw [hz]
        simp only [pow_zero, Nat.div_one]
        omega


/-- Rounding stays below a bound that the exact value misses by at least the fraction
`2 ^ -53` of the bound. -/
theorem roundDouble_lt (n bound : Nat) (hn : n < bound) (hgap : bound ≤ 2 ^ 53 * (bound - n)) :
    roundDouble n < bound := by
  unfold roundDouble
  simp only
  split_ifs with h0 h1 h2
  · exact hn
  · exact lt_of_le_of_lt (Nat.div_mul_le_self _ _) hn
  · exact lt_of_le_of_lt (Nat.div_mul_le_self _ _) hn
  · by_contra hge
    have hbig : 2 ^ 53 ≤ n := by
      by_contra hsmall
      have : excessBits n n = 0 := by
        cases n with
        | zero => rfl
        | succ k =>
          unfold excessBits
          rw [if_pos (not_le.mp hsmall)]
      exact h0 this
    obtain ⟨_, hspec⟩ := excessBits_spec n n le_rfl
    obtain ⟨hs1, hq⟩ := hspec hbig
    generalize excessBits n n = s at *
    have hrem : 2 ^ (s - 1) ≤ n % 2 ^ s := not_lt.mp h1
    have hpow : 2 ^ s = 2 * 2 ^ (s - 1) := by
      conv_lhs => rw [show s = (s - 1) + 1 by omega]
      rw [pow_succ, mul_comm]
    have hdecomp : n / 2 ^ s * 2 ^ s + n % 2 ^ s = n := by
      rw [mul_comm]
      exact Nat.div_add_mod n (2 ^ s)
    have hup : (n / 2 ^ s + 1) * 2 ^ s ≤ n + 2 ^ (s - 1) := by
      rw [add_mul, one_mul]
      omega
    have hlow : 2 ^ 52 * 2 ^ s ≤ n := by
      calc 2 ^ 52 * 2 ^ s ≤ n / 2 ^ s * 2 ^ s := Nat.mul_le_mul_right _ hq
        _ ≤ n := Nat.div_mul_le_self _ _
    have hb : bound ≤ n + 2 ^ (s - 1) := le_trans (not_lt.mp hge) hup
    have hdiff : bound - n ≤ 2 ^ (s - 1) := by omega
    have h53 : 2 ^ 53 * (bound - n) ≤ 2 ^ 53 * 2 ^ (s - 1) := Nat.mul_le_mul_left _ hdiff
    have heq : 2 ^ 53 * 2 ^ (s - 1) = 2 ^ 52 * 2 ^ s := by
      rw [hpow]
      ring
    omega

theorem randomIndex_nonneg (r : Sample) {g : Int} (hg : 0 ≤ g) : 0 ≤ randomIndex r g := by
  unfold randomIndex
  exact Int.ediv_nonneg (Int.mul_nonneg (Int.sign_nonneg.mpr hg) (Int.ofNat_nonneg _))
    (Int.ofNat_nonneg _)

theorem randomIndex_lt (r : Sample) {g : Int} (hg : 0 < g) : randomIndex r g < g := by
  unfold randomIndex
  have hpos : 0 < g.natAbs := Int.natAbs_pos.mpr (ne_of_gt hg)
  have hexp : 0 < 2 ^ r.exp := pow_pos (by decide) _
  have hround : roundDouble (r.num * g.natAbs) < 2 ^ r.exp * g.natAbs := by
    apply roundDouble_lt
    · exact Nat.mul_lt_mul_of_pos_right r.lt hpos
    · have hgap : 2 ^ r.exp ≤ 2 ^ 53 * (2 ^ r.exp - r.num) := by
        by_cases hk : r.exp ≤ 53
        · have h1 : 1 ≤ 2 ^ r.exp - r.num := by
            have := r.lt
            omega
          calc 2 ^ r.exp ≤ 2 ^ 53 := Nat.pow_le_pow_right (by decide) hk
            _ = 2 ^ 53 * 1 := (mul_one _).symm
            _ ≤ 2 ^ 53 * (2 ^ r.exp - r.num) := Nat.mul_le_mul_left _ h1
        · have hk1 : 53 ≤ r.exp - 1 := by omega
          have hp : 2 ^ r.exp = 2 * 2 ^ (r.exp - 1) := by
            conv_lhs => rw [show r.exp = (r.exp - 1) + 1 by omega]
            rw [pow_succ, mul_comm]
          have h53 : 2 ^ 53 ≤ 2 ^ (r.exp - 1) := Nat.pow_le_pow_right (by decide) hk1
          have h2 : 2 ^ (r.exp - 1) ≤ 2 ^ r.exp - r.num := by
            have := r.significand
            omega
          calc 2 ^ r.exp = 2 * 2 ^ (r.exp - 1) := hp
            _ ≤ 2 ^ 53 * 2 ^ (r.exp - 1) := Nat.mul_le_mul_right _ (by decide)
            _ ≤ 2 ^ 53 * (2 ^ r.exp - r.num) := Nat.mul_le_mul_left _ h2
      calc 2 ^ r.exp * g.natAbs ≤ 2 ^ 53 * (2 ^ r.exp - r.num) * g.natAbs :=
            Nat.mul_le_mul_right _ hgap
        _ = 2 ^ 53 * (2 ^ r.exp * g.natAbs - r.num * g.natAbs) := by
            rw [Nat.mul_assoc, Nat.sub_mul]
  have hsign : Int.sign g = 1 := Int.sign_eq_one_of_pos hg
  rw [hsign, one_mul]
  apply Int.ediv_lt_of_lt_mul (by exact_mod_cast hexp)
  have habs : (g.natAbs : Int) = g := Int.natAbs_of_nonneg hg.le
  have : ((roundDouble (r.num * g.natAbs) : Nat) : Int) < ((2 ^ r.exp * g.natAbs : Nat) : Int) := by
    exact_mod_cast hround
  rw [Nat.cast_mul, habs] at this
  rw [mul_comm g]
  exact this

theorem roundDouble_small (n : Nat) (h : n < 2 ^ 53) : roundDouble n = n := by
  have hz : excessBits n n = 0 := by
    cases n with
    | zero => rfl
    | succ k =>
      unfold excessBits
      rw [if_pos h]
  simp [roundDouble, hz]

/-- What a returning `placeFood` has done: only `food` is written, the new food is off the
snake, and it is the position of one pair of draws. -/
theorem placeFood_some (cfg : Settings) :
    ∀ (rs : List Sample) (st st1 : GameState) (rs1 : List Sample),
      placeFood cfg rs st = some (st1, rs1) →
      st1 = { st with food := st1.food } ∧
      st.snake.any (fun segment => sameCell segment st1.food) = false ∧
      ∃ rx ry, st1.food = Cell.mk (randomIndex rx cfg.gridSize) (randomIndex ry cfg.gridSize)
  | [], _, _, _, h => by simp [placeFood] at h
  | [_], _, _, _, h => by simp [placeFood] at h
  | rx :: ry :: rest, st, st1, rs1, h => by
    simp only [placeFood] at h
    split at h
    · rename_i hv
      simp only [Option.some.injEq, Prod.mk.injEq] at h
      obtain ⟨h1, _⟩ := h
      subst h1
      refine ⟨rfl, ?_, rx, ry, rfl⟩
      simpa using hv
    · exact placeFood_some cfg rest st st1 rs1 h

/-- The loop of `placeFood` returns at its first iteration when the first position drawn is
off the snake. -/
theorem placeFood_first (cfg : Settings) (rx ry : Sample) (rest : List Sample) (st : GameState)
    (hfree : st.snake.any (fun segment => sameCell segment
      (Cell.mk (randomIndex rx cfg.gridSize) (randomIndex ry cfg.gridSize))) = false) :
    placeFood cfg (rx :: ry :: rest) st =
      some ({ st with food := Cell.mk (randomIndex rx cfg.gridSize) (randomIndex ry cfg.gridSize) },
        rest) := by
  simp only [placeFood, hfree]
  simp

/-- The body of `update` for a snake with a first cell, by its four exits. -/
theorem update_cons (cfg : Settings) (rs : List Sample) (st : GameState)
    (segment0 : Cell) (rest : List Cell) (hs : st.snake = segment0 :: rest) :
    update cfg rs st =
      if cfg.wallsAreSolid && outsideGrid cfg.gridSize
          (Cell.mk (segment0.x + st.direction.x) (segment0.y + st.direction.y)) then
        some (if !cfg.zenMode then { st with isGameOver := true } else st, rs)
      else if !cfg.zenMode && hitsBody (newHead cfg st.direction segment0) st.snake then
        some ({ st with isGameOver := true }, rs)
      else if sameCell (newHead cfg st.direction segment0) st.food then
        placeFood cfg rs { st with snake := newHead cfg st.direction segment0 :: st.snake,
                                   score := st.score + 1 }
      else
        some ({ st with snake := newHead cfg st.direction segment0 :: st.snake.dropLast }, rs) := by
  obtain ⟨snake, food, direction, score, over, paused⟩ := st
  simp only at hs
  subst hs
  simp [update, newHead, List.dropLast]

theorem any_sameCell_iff (snake : List Cell) (c : Cell) :
    snake.any (fun segment => sameCell segment c) = true ↔ c ∈ snake := by
  simp only [List.any_eq_true, sameCell_eq_true_iff]
  constructor
  · rintro ⟨s, hs, rfl⟩
    exact hs
  · intro h
    exact ⟨c, h, rfl⟩

theorem any_sameCell_false_iff (snake : List Cell) (c : Cell) :
    snake.any (fun segment => sameCell segment c) = false ↔ c ∉ snake := by
  rw [← any_sameCell_iff]; simp

theorem hitsBody_cons_iff (head segment0 : Cell) (rest : List Cell) :
    hitsBody head (segment0 :: rest) = true ↔ head ∈ rest := by
  simp only [hitsBody, List.drop_succ_cons, List.drop_zero, List.any_eq_true,
    sameCell_eq_true_iff]
  constructor
  · rintro ⟨s, hs, rfl⟩
    exact hs
  · intro h
    exact ⟨head, h, rfl⟩

theorem outsideGrid_eq_false_iff (g : Int) (c : Cell) :
    outsideGrid g c = false ↔ (0 ≤ c.x ∧ c.x < g) ∧ (0 ≤ c.y ∧ c.y < g) := by
  simp only [outsideGrid, Bool.or_eq_false_iff, decide_eq_false_iff_not]
  omega

theorem outsideGrid_eq_true_iff (g : Int) (c : Cell) :
    outsideGrid g c = true ↔ c.x < 0 ∨ g ≤ c.x ∨ c.y < 0 ∨ g ≤ c.y := by
  simp only [outsideGrid, Bool.or_eq_true, decide_eq_true_eq]
  omega

theorem wrapHead_x (g : Int) (c : Cell) :
    (wrapHead g c).x = if c.x < 0 then (if g - 1 ≥ g then 0 else g - 1)
      else if c.x ≥ g then 0 else c.x := by
  unfold wrapHead
  simp only
  split_ifs <;> simp_all

theorem wrapHead_y (g : Int) (c : Cell) :
    (wrapHead g c).y = if c.y < 0 then (if g - 1 ≥ g then 0 else g - 1)
      else if c.y ≥ g then 0 else c.y := by
  unfold wrapHead
  simp only
  split_ifs <;> simp_all

theorem wrap_emod (g v : Int) (hg : 1 ≤ g) (hv : -1 ≤ v ∧ v ≤ g) :
    (if v < 0 then (if g - 1 ≥ g then 0 else g - 1) else if v ≥ g then 0 else v) = v % g := by
  have h1 : ¬ (g - 1 ≥ g) := by omega
  simp only [h1, if_false]
  split_ifs with ha hb
  · have hv1 : v = -1 := by omega
    subst hv1
    have : (-1 : Int) % g = (-1 + g) % g := by simp
    rw [this, Int.emod_eq_of_lt (by omega) (by omega)]
    omega
  · have hv1 : v = g := by omega
    subst hv1
    simp
  · rw [Int.emod_eq_of_lt (by omega) (by omega)]

/-- The four exits of `update`, with the tests of the script written as propositions. -/
theorem update_exits (cfg : Settings) (rs : List Sample) (st : GameState)
    (segment0 : Cell) (rest : List Cell) (nh : Cell) (hs : st.snake = segment0 :: rest)
    (hnh : nh = newHead cfg st.direction segment0) :
    update cfg rs st =
      if cfg.wallsAreSolid = true ∧
          (segment0.x + st.direction.x < 0 ∨ cfg.gridSize ≤ segment0.x + st.direction.x ∨
           segment0.y + st.direction.y < 0 ∨ cfg.gridSize ≤ segment0.y + st.direction.y) then
        some (if cfg.zenMode = false then { st with isGameOver := true } else st, rs)
      else if cfg.zenMode = false ∧ nh ∈ rest then
        some ({ st with isGameOver := true }, rs)
      else if nh = st.food then
        placeFood cfg rs { st with snake := nh :: st.snake, score := st.score + 1 }
      else
        some ({ st with snake := nh :: st.snake.dropLast }, rs) := by
  have e1 : (cfg.wallsAreSolid && outsideGrid cfg.gridSize
      (Cell.mk (segment0.x + st.direction.x) (segment0.y + st.direction.y))) =
      decide (cfg.wallsAreSolid = true ∧
          (segment0.x + st.direction.x < 0 ∨ cfg.gridSize ≤ segment0.x + st.direction.x ∨
           segment0.y + st.direction.y < 0 ∨ cfg.gridSize ≤ segment0.y + st.direction.y)) := by
    rw [Bool.eq_iff_iff]
    simp [outsideGrid_eq_true_iff]
  have e2 : (!cfg.zenMode && hitsBody nh st.snake) = decide (cfg.zenMode = false ∧ nh ∈ rest) := by
    rw [Bool.eq_iff_iff, hs]
    simp [hitsBody_cons_iff]
  have e3 : sameCell nh st.food = decide (nh = st.food) := by
    rw [Bool.eq_iff_iff]
    simp [sameCell_eq_true_iff]
  have e4 : (!cfg.zenMode) = decide (cfg.zenMode = false) := by
    cases cfg.zenMode <;> rfl
  rw [update_cons cfg rs st segment0 rest hs, ← hnh, e1, e2, e3, e4]
  simp only [decide_eq_true_eq]

/-! ## The properties -/

/-- C1: on a tick of `update` that does not collide (with solid walls the moved head is in
the grid, and outside zen mode the new head is on no cell checked for a self-hit), a new head
different from the food gives the snake `newHead :: (snake without its last cell)`, of the
same length, and leaves everything else as it was; a new head on the food gives, whenever
`placeFood` returns, the snake `newHead :: snake`, one longer, and the score plus one, and
`update` returns at once when the first position drawn is off the grown snake. -/
theorem update_moves_or_grows (cfg : Settings) (rs : List Sample) (st : GameState)
    (segment0 : Cell) (rest : List Cell) (nh : Cell)
    (hs : st.snake = segment0 :: rest)
    (hnh : nh = newHead cfg st.direction segment0)
    (hwall : cfg.wallsAreSolid = true →
      (0 ≤ segment0.x + st.direction.x ∧ segment0.x + st.direction.x < cfg.gridSize) ∧
      (0 ≤ segment0.y + st.direction.y ∧ segment0.y + st.direction.y < cfg.gridSize))
    (hself : cfg.zenMode = false → nh ∉ rest) :
    (nh ≠ st.food →
      update cfg rs st = some ({ st with snake := nh :: st.snake.dropLast }, rs) ∧
      (nh :: st.snake.dropLast).length = st.snake.length) ∧
    (nh = st.food →
      (∀ st1 rs1, update cfg rs st = some (st1, rs1) →
        st1.snake = nh :: st.snake ∧ st1.snake.length = st.snake.length + 1 ∧
        st1.score = st.score + 1) ∧
      (∀ rx ry more,
        Cell.mk (randomIndex rx cfg.gridSize) (randomIndex ry cfg.gridSize) ∉ nh :: st.snake →
        update cfg (rx :: ry :: more) st =
          some ({ st with snake := nh :: st.snake, score := st.score + 1,
                          food := Cell.mk (randomIndex rx cfg.gridSize)
                            (randomIndex ry cfg.gridSize) }, more))) := by
  have hw : (cfg.wallsAreSolid && outsideGrid cfg.gridSize
      (Cell.mk (segment0.x + st.direction.x) (segment0.y + st.direction.y))) = false := by
    cases hws : cfg.wallsAreSolid
    · rfl
    · simpa using (outsideGrid_eq_false_iff _ _).mpr (hwall hws)
  have hb : (!cfg.zenMode && hitsBody nh st.snake) = false := by
    cases hz : cfg.zenMode
    · have hnot := hself hz
      have : hitsBody nh st.snake = false := by
        rw [hs, ← Bool.not_eq_true, hitsBody_cons_iff]
        exact hnot
      simpa using this
    · rfl
  have hu : ∀ rs0, update cfg rs0 st =
      if sameCell nh st.food then
        placeFood cfg rs0 { st with snake := nh :: st.snake, score := st.score + 1 }
      else some ({ st with snake := nh :: st.snake.dropLast }, rs0) := by
    intro rs0
    rw [update_cons cfg rs0 st segment0 rest hs, ← hnh, hw, hb]
    simp
  refine ⟨?_, ?_⟩
  · intro hne
    refine ⟨?_, ?_⟩
    · rw [hu, (sameCell_eq_false_iff _ _).mpr hne]
      simp
    · simp [hs]
  · intro heq
    have hsame : sameCell nh st.food = true := (sameCell_eq_true_iff _ _).mpr heq
    refine ⟨?_, ?_⟩
    · intro st1 rs1 h1
      rw [hu, hsame] at h1
      simp only [if_true] at h1
      obtain ⟨hst, _, _⟩ := placeFood_some cfg rs _ st1 rs1 h1
      rw [hst]
      simp
    · intro rx ry more hfree
      rw [hu, hsame]
      simp only [if_true]
      rw [placeFood_first]
      exact (any_sameCell_false_iff _ _).mpr hfree

/-- C1, on the default 20 by 20 grid with the snake `[(10,10)]` heading `(1,0)`: with the food
at (5,5) the tick gives `[(11,10)]` and score 0; with the food at (11,10) and the next position
drawn (3,7) it gives `[(11,10),(10,10)]` and score 1. -/
theorem update_moves_or_grows_witness :
    update defaultSettings [] startState =
      some ({ startState with snake := [Cell.mk 11 10] }, []) ∧
    update defaultSettings [draw20 3 (by decide), draw20 7 (by decide)]
        { startState with food := Cell.mk 11 10 } =
      some ({ startState with snake := [Cell.mk 11 10, Cell.mk 10 10], score := 1,
                              food := Cell.mk 3 7 }, []) := by
  constructor
  · exact ((update_moves_or_grows defaultSettings [] startState (Cell.mk 10 10) []
      (Cell.mk 11 10) rfl (by decide) (by decide) (by decide)).1 (by decide)).1
  · exact (((update_moves_or_grows defaultSettings [] { startState with food := Cell.mk 11 10 }
      (Cell.mk 10 10) [] (Cell.mk 11 10) rfl (by decide) (by decide) (by decide)).2
        (by decide)).2 (draw20 3 (by decide)) (draw20 7 (by decide)) [] (by decide)).trans
          (by decide)

/-- C2: without solid walls, on a grid of size at least 1, from a first cell inside the grid
and with a unit heading, the head `update` goes on with is
`((x + dx) mod gridSize, (y + dy) mod gridSize)`, so a head leaving at `x = -1` is at
`gridSize - 1`; `update` ends the game when this cell is a self-hit outside zen mode and
otherwise puts this cell at the front of the snake. -/
theorem update_wraps_modulo (cfg : Settings) (rs : List Sample) (st : GameState)
    (segment0 : Cell) (rest : List Cell) (m : Cell)
    (hw : cfg.wallsAreSolid = false) (hg : 1 ≤ cfg.gridSize)
    (hs : st.snake = segment0 :: rest)
    (hx : 0 ≤ segment0.x ∧ segment0.x < cfg.gridSize)
    (hy : 0 ≤ segment0.y ∧ segment0.y < cfg.gridSize)
    (hd : UnitHeading st.direction)
    (hm : m = Cell.mk ((segment0.x + st.direction.x) % cfg.gridSize)
      ((segment0.y + st.direction.y) % cfg.gridSize)) :
    newHead cfg st.direction segment0 = m ∧
    (segment0.x + st.direction.x = -1 → m.x = cfg.gridSize - 1) ∧
    update cfg rs st =
      if cfg.zenMode = false ∧ m ∈ rest then some ({ st with isGameOver := true }, rs)
      else if m = st.food then
        placeFood cfg rs { st with snake := m :: st.snake, score := st.score + 1 }
      else some ({ st with snake := m :: st.snake.dropLast }, rs) := by
  have hdx : -1 ≤ st.direction.x ∧ st.direction.x ≤ 1 := by
    rcases hd with h | h | h | h <;> rw [h] <;> decide
  have hdy : -1 ≤ st.direction.y ∧ st.direction.y ≤ 1 := by
    rcases hd with h | h | h | h <;> rw [h] <;> decide
  have hnew : newHead cfg st.direction segment0 = m := by
    have hxm := wrap_emod cfg.gridSize (segment0.x + st.direction.x) hg (by omega)
    have hym := wrap_emod cfg.gridSize (segment0.y + st.direction.y) hg (by omega)
    have e : ∀ a b : Cell, a.x = b.x → a.y = b.y → a = b := by
      intro a b h1 h2
      cases a; cases b
      simp_all
    apply e
    · simp only [newHead, hw, Bool.false_eq_true, if_false, hm, wrapHead_x]
      exact hxm
    · simp only [newHead, hw, Bool.false_eq_true, if_false, hm, wrapHead_y]
      exact hym
  refine ⟨hnew, ?_, ?_⟩
  · intro h1
    rw [hm, h1]
    have : (-1 : Int) % cfg.gridSize = (-1 + cfg.gridSize) % cfg.gridSize := by simp
    simp only [this]
    rw [Int.emod_eq_of_lt (by omega) (by omega)]
    omega
  · rw [update_exits cfg rs st segment0 rest m hs hnew.symm]
    simp [hw]

/-- C2 at the left edge of the default grid with the walls open: the head (0,10) heading
`(-1,0)` goes to (19,10). -/
theorem update_wraps_modulo_witness :
    update { defaultSettings with wallsAreSolid := false } []
        { startState with snake := [Cell.mk 0 10], direction := Cell.mk (-1) 0 } =
      some ({ startState with snake := [Cell.mk 19 10], direction := Cell.mk (-1) 0 }, []) :=
  ((update_wraps_modulo { defaultSettings with wallsAreSolid := false } []
      { startState with snake := [Cell.mk 0 10], direction := Cell.mk (-1) 0 }
      (Cell.mk 0 10) [] (Cell.mk 19 10) rfl (by decide) rfl (by decide) (by decide)
      (by decide) (by decide)).2.2).trans (by decide)

/-- C3: with solid walls and zen mode off, when the first cell plus the heading is outside
`[0, gridSize)` on an axis, `update` sets `isGameOver` and changes nothing else. -/
theorem update_wall_hit_ends_game (cfg : Settings) (rs : List Sample) (st : GameState)
    (segment0 : Cell) (rest : List Cell)
    (hw : cfg.wallsAreSolid = true) (hz : cfg.zenMode = false)
    (hs : st.snake = segment0 :: rest)
    (hout : segment0.x + st.direction.x < 0 ∨ cfg.gridSize ≤ segment0.x + st.direction.x ∨
      segment0.y + st.direction.y < 0 ∨ cfg.gridSize ≤ segment0.y + st.direction.y) :
    update cfg rs st = some ({ st with isGameOver := true }, rs) := by
  rw [update_exits cfg rs st segment0 rest _ hs rfl]
  simp [hw, hz, hout]

/-- C3 at the right wall of the default grid: from (19,10) heading `(1,0)` the game is over
and the snake is still `[(19,10)]`. -/
theorem update_wall_hit_ends_game_witness :
    update defaultSettings [] { startState with snake := [Cell.mk 19 10] } =
      some ({ startState with snake := [Cell.mk 19 10], isGameOver := true }, []) :=
  update_wall_hit_ends_game defaultSettings [] { startState with snake := [Cell.mk 19 10] }
    (Cell.mk 19 10) [] rfl rfl rfl (by decide)

/-- On a wrapped grid of size at least 2, or with solid walls, a unit heading never brings the
new head back onto the cell it started from. -/
theorem newHead_ne_segment0 (cfg : Settings) (d segment0 : Cell) (hd : UnitHeading d)
    (hg : cfg.wallsAreSolid = true ∨ 2 ≤ cfg.gridSize) : newHead cfg d segment0 ≠ segment0 := by
  intro h
  have hx := congrArg Cell.x h
  have hy := congrArg Cell.y h
  cases hw : cfg.wallsAreSolid
  · have hg2 : 2 ≤ cfg.gridSize := by
      rcases hg with hg | hg
      · rw [hw] at hg
        exact absurd hg (by decide)
      · exact hg
    simp only [newHead, hw, Bool.false_eq_true, if_false, wrapHead_x, wrapHead_y] at hx hy
    rcases hd with hd | hd | hd | hd <;> subst hd <;> simp only at hx hy <;>
      split_ifs at hx hy <;> omega
  · simp only [newHead, hw, if_true] at hx hy
    rcases hd with hd | hd | hd | hd <;> subst hd <;> simp only at hx hy <;> omega

/-- C4: outside zen mode, for a snake with a first cell and a unit heading, on a grid a game
can be played on (solid walls, or a size of at least 2: on a smaller grid `resetGame` never
returns), when the new head (after boundary handling) is any cell of the body before the move,
the cell about to be popped included, `update` sets `isGameOver` and changes nothing else; for
a cell of index 1 or later this holds on every grid and for every heading. -/
theorem update_self_hit_ends_game (cfg : Settings) (rs : List Sample) (st : GameState)
    (segment0 : Cell) (rest : List Cell) (nh : Cell)
    (hz : cfg.zenMode = false) (hs : st.snake = segment0 :: rest)
    (hnh : nh = newHead cfg st.direction segment0)
    (hhit : nh ∈ rest ∨ (nh ∈ st.snake ∧ UnitHeading st.direction ∧
      (cfg.wallsAreSolid = true ∨ 2 ≤ cfg.gridSize))) :
    update cfg rs st = some ({ st with isGameOver := true }, rs) := by
  have hin : nh ∈ rest := by
    rcases hhit with h | ⟨h, hd, hg⟩
    · exact h
    · rw [hs, List.mem_cons] at h
      rcases h with h | h
      · exact absurd (hnh.symm.trans h) (newHead_ne_segment0 cfg st.direction segment0 hd hg)
      · exact h
  rw [update_exits cfg rs st segment0 rest nh hs hnh]
  simp [hz, hin]

/-- C4 on the default grid: the head (5,5) of the coiled snake, heading right, lands on the
last cell (6,5), which this tick would have popped, and the game is over with the snake as it
was. -/
theorem update_self_hit_ends_game_witness :
    update defaultSettings [] coiledState =
      some ({ coiledState with isGameOver := true }, []) ∧
    ({ coiledState with isGameOver := true } : GameState).snake =
      [Cell.mk 5 5, Cell.mk 5 6, Cell.mk 6 6, Cell.mk 6 5] :=
  ⟨update_self_hit_ends_game defaultSettings [] coiledState (Cell.mk 5 5)
      [Cell.mk 5 6, Cell.mk 6 6, Cell.mk 6 5] (Cell.mk 6 5) rfl rfl (by decide)
      (Or.inr (by decide)), rfl⟩

/-- What the eight keys of lines 291-294 do in a running state with a unit heading: an arrow
key or a lower-case `w`, `a`, `s`, `d` asking for the exact opposite of the heading leaves the
state as it is, and one asking for a heading perpendicular to it sets the heading to the one
asked for. -/
theorem handleKeyDown_turn (cfg : Settings) (rs : List Sample) (st : GameState)
    (key : String) (dir : Cell)
    (hover : st.isGameOver = false) (hpaused : st.isPaused = false)
    (hd : UnitHeading st.direction) (hk : (key, dir) ∈ movementKeys) :
    (dir = Cell.mk (-st.direction.x) (-st.direction.y) →
      handleKeyDown cfg rs key st = some (st, rs)) ∧
    (dir.x * st.direction.x + dir.y * st.direction.y = 0 →
      handleKeyDown cfg rs key st = some ({ st with direction := dir }, rs)) := by
  obtain ⟨snake, food, direction, score, over, paused⟩ := st
  simp only at hover hpaused hd
  subst hover hpaused
  simp only [movementKeys, List.mem_cons, Prod.mk.injEq, List.mem_singleton,
    List.not_mem_nil, or_false] at hk
  rcases hd with hd | hd | hd | hd <;> subst hd <;>
    rcases hk with ⟨hk, hdir⟩ | ⟨hk, hdir⟩ | ⟨hk, hdir⟩ | ⟨hk, hdir⟩ | ⟨hk, hdir⟩ |
      ⟨hk, hdir⟩ | ⟨hk, hdir⟩ | ⟨hk, hdir⟩ <;>
    subst hk hdir <;> constructor <;> intro h <;> simp [handleKeyDown] at h ⊢

/-- From the start state, which heads right: `ArrowLeft` asks for the opposite heading and
changes nothing; `w` asks for up and the heading becomes `(0,-1)`. -/
theorem handleKeyDown_turn_witness :
    handleKeyDown defaultSettings [] "ArrowLeft" startState = some (startState, []) ∧
    handleKeyDown defaultSettings [] "w" startState =
      some ({ startState with direction := Cell.mk 0 (-1) }, []) :=
  ⟨(handleKeyDown_turn defaultSettings [] startState "ArrowLeft" (Cell.mk (-1) 0) rfl rfl
      (by decide) (by decide)).1 (by decide),
   (handleKeyDown_turn defaultSettings [] startState "w" (Cell.mk 0 (-1)) rfl rfl
      (by decide) (by decide)).2 (by decide)⟩

/-- C5 fails on the script for the upper-case letters: from the start state, which heads
right, the keys `W` and `S` ask for headings perpendicular to it and `handleKeyDown` leaves the
state as it is, where `w` and `s` set the heading to `(0,-1)` and `(0,1)`; the pause key of
line 279 is taken in both cases, `p` and `P`. -/
theorem upper_case_move_keys_ignored :
    handleKeyDown defaultSettings [] "W" startState = some (startState, []) ∧
    handleKeyDown defaultSettings [] "S" startState = some (startState, []) ∧
    handleKeyDown defaultSettings [] "w" startState =
      some ({ startState with direction := Cell.mk 0 (-1) }, []) ∧
    handleKeyDown defaultSettings [] "s" startState =
      some ({ startState with direction := Cell.mk 0 1 }, []) ∧
    handleKeyDown defaultSettings [] "p" startState =
      some ({ startState with isPaused := true }, []) ∧
    handleKeyDown defaultSettings [] "P" startState =
      some ({ startState with isPaused := true }, []) := by
  decide

/-- C6 fails on the script: each key is compared with the heading the previous key has just
written, not with the heading of the last tick.  The two-cell snake heading right ticks once to
`[(11,10),(10,10)]`; the keys `ArrowUp` and `ArrowLeft` then turn the heading to `(0,-1)` and
to `(-1,0)`, the exact opposite of the heading of that tick; the next tick steps the head back
onto (10,10), the segment behind it, and the game is over. -/
theorem two_keys_reverse_heading :
    mainGameLoop defaultSettings [] twoCellState =
      some ({ twoCellState with snake := [Cell.mk 11 10, Cell.mk 10 10] }, []) ∧
    handleKeyDown defaultSettings [] "ArrowUp"
        { twoCellState with snake := [Cell.mk 11 10, Cell.mk 10 10] } =
      some ({ twoCellState with snake := [Cell.mk 11 10, Cell.mk 10 10],
                                direction := Cell.mk 0 (-1) }, []) ∧
    handleKeyDown defaultSettings [] "ArrowLeft"
        { twoCellState with snake := [Cell.mk 11 10, Cell.mk 10 10],
                            direction := Cell.mk 0 (-1) } =
      some ({ twoCellState with snake := [Cell.mk 11 10, Cell.mk 10 10],
                                direction := Cell.mk (-1) 0 }, []) ∧
    Cell.mk (-1) 0 = Cell.mk (-twoCellState.direction.x) (-twoCellState.direction.y) ∧
    newHead defaultSettings (Cell.mk (-1) 0) (Cell.mk 11 10) = Cell.mk 10 10 ∧
    mainGameLoop defaultSettings []
        { twoCellState with snake := [Cell.mk 11 10, Cell.mk 10 10],
                            direction := Cell.mk (-1) 0 } =
      some ({ twoCellState with snake := [Cell.mk 11 10, Cell.mk 10 10],
                                direction := Cell.mk (-1) 0, isGameOver := true }, []) := by
  decide

/-- C7: in zen mode `update` never writes `isGameOver`: every state it returns has the flag
it started with, and when it does not return it is inside `placeFood`, entered with the flag
unchanged. -/
theorem update_zen_keeps_flag (cfg : Settings) (rs : List Sample) (st : GameState)
    (hz : cfg.zenMode = true) :
    (∀ st1 rs1, update cfg rs st = some (st1, rs1) → st1.isGameOver = st.isGameOver) ∧
    (update cfg rs st = none →
      ∃ st0, st0.isGameOver = st.isGameOver ∧ placeFood cfg rs st0 = none) := by
  cases hs : st.snake with
  | nil =>
    have hu : update cfg rs st = some (st, rs) := by
      simp [update, hs]
    rw [hu]
    simp
  | cons segment0 rest =>
    rw [update_exits cfg rs st segment0 rest _ hs rfl]
    simp only [hz, Bool.true_eq_false, false_and, if_false]
    split_ifs with h1 h2
    · simp
    · refine ⟨?_, ?_⟩
      · intro st1 rs1 h
        obtain ⟨hst, _, _⟩ := placeFood_some cfg rs _ st1 rs1 h
        rw [hst]
      · intro h
        refine ⟨_, ?_, h⟩
        rfl
    · simp

/-- C7 on the default grid in zen mode: the coiled snake steps onto its own last cell and the
game is not over. -/
theorem update_zen_keeps_flag_witness :
    update zenSettings [] coiledState =
      some ({ coiledState with
        snake := [Cell.mk 6 5, Cell.mk 5 5, Cell.mk 5 6, Cell.mk 6 6] }, []) ∧
    ({ coiledState with
        snake := [Cell.mk 6 5, Cell.mk 5 5, Cell.mk 5 6, Cell.mk 6 6] } : GameState).isGameOver =
      false :=
  ⟨by decide, (update_zen_keeps_flag zenSettings [] coiledState rfl).1 _ [] (by decide)⟩

/-- C8: with solid walls and zen mode on, when the first cell plus the heading is outside
`[0, gridSize)` on an axis, `update` returns the state it was given. -/
theorem update_zen_wall_noop (cfg : Settings) (rs : List Sample) (st : GameState)
    (segment0 : Cell) (rest : List Cell)
    (hw : cfg.wallsAreSolid = true) (hz : cfg.zenMode = true)
    (hs : st.snake = segment0 :: rest)
    (hout : segment0.x + st.direction.x < 0 ∨ cfg.gridSize ≤ segment0.x + st.direction.x ∨
      segment0.y + st.direction.y < 0 ∨ cfg.gridSize ≤ segment0.y + st.direction.y) :
    update cfg rs st = some (st, rs) := by
  rw [update_exits cfg rs st segment0 rest _ hs rfl]
  simp [hw, hz, hout]

/-- C8 at the right wall of the default grid in zen mode: from (19,10) heading `(1,0)` nothing
changes. -/
theorem update_zen_wall_noop_witness :
    update zenSettings [] { startState with snake := [Cell.mk 19 10] } =
      some ({ startState with snake := [Cell.mk 19 10] }, []) :=
  update_zen_wall_noop zenSettings [] { startState with snake := [Cell.mk 19 10] }
    (Cell.mk 19 10) [] rfl rfl rfl (by decide)

theorem randomIndex_zeroDraw (g : Int) : randomIndex zeroDraw g = 0 := by
  simp [randomIndex, zeroDraw, roundDouble, excessBits]


theorem randomIndex_drawOf (num den : Int) (h0 : 0 ≤ num) (h : num < den)
    (hden : den ≤ 2 ^ 26) : randomIndex (drawOf num den) den = num := by
  have hd : 0 < den.toNat := by omega
  have h26 : den.toNat ≤ 2 ^ 26 := by omega
  have hlt : num.toNat + 1 ≤ den.toNat := by omega
  have hm : (num.toNat + 1) * 2 ^ 26 ≤ den.toNat * 2 ^ 26 := Nat.mul_le_mul_right _ hlt
  rw [add_mul, one_mul] at hm
  have hc := Nat.div_mul_le_self (num.toNat * 2 ^ 26 + den.toNat - 1) den.toNat
  have hc2 := Nat.lt_div_mul_add (a := num.toNat * 2 ^ 26 + den.toNat - 1) hd
  have hbound : (num.toNat * 2 ^ 26 + den.toNat - 1) / den.toNat ≤ 2 ^ 26 - 1 := by
    by_contra hge
    have h1 : 2 ^ 26 * den.toNat ≤
        (num.toNat * 2 ^ 26 + den.toNat - 1) / den.toNat * den.toNat :=
      Nat.mul_le_mul_right _ (by omega)
    rw [mul_comm (2 ^ 26) den.toNat] at h1
    omega
  have hnum : (drawOf num den).num = (num.toNat * 2 ^ 26 + den.toNat - 1) / den.toNat := by
    simp only [drawOf]
    exact Nat.min_eq_left hbound
  have habs : den.natAbs = den.toNat := by omega
  have hsign : Int.sign den = 1 := Int.sign_eq_one_of_pos (by omega)
  have hprod : (drawOf num den).num * den.natAbs < 2 ^ 53 := by
    rw [hnum, habs]
    have : (2 : Nat) ^ 26 * 2 ^ 26 ≤ 2 ^ 53 := by decide
    have h2 : den.toNat * 2 ^ 26 ≤ 2 ^ 26 * 2 ^ 26 := Nat.mul_le_mul_right _ h26
    omega
  have hexp : (drawOf num den).exp = 26 := rfl
  unfold randomIndex
  rw [roundDouble_small _ hprod, hsign, one_mul, hexp, hnum, habs]
  have hq : (num.toNat * 2 ^ 26 + den.toNat - 1) / den.toNat * den.toNat / 2 ^ 26 = num.toNat := by
    apply Nat.div_eq_of_lt_le
    · omega
    · rw [Nat.succ_mul]
      omega
  rw [← Int.ofNat_ediv, hq]
  exact Int.toNat_of_nonneg h0

/-- What `resetGame` has written when it reaches its call of `placeFood`, and so what any
state it returns holds outside `food`. -/
theorem resetGame_some (cfg : Settings) (rs : List Sample) (st st1 : GameState)
    (rs1 : List Sample) (h : resetGame cfg rs st = some (st1, rs1)) :
    st1.snake = [Cell.mk (cfg.gridSize / 2) (cfg.gridSize / 2)] ∧
    st1.direction = Cell.mk 1 0 ∧ st1.score = 0 ∧ st1.isGameOver = false ∧
    st1.isPaused = false := by
  unfold resetGame at h
  obtain ⟨hst, _, _⟩ := placeFood_some cfg rs _ st1 rs1 h
  rw [hst]
  simp

/-- C9: on a grid of size at least 2 and from any prior state, every state `resetGame` returns
has the snake `[(gridSize / 2, gridSize / 2)]` (floor division), the heading `(1,0)`, the score 0
and both flags off; so has every state `saveSettings` returns, with `gridSize` unchanged; and
both do return when the first position drawn is (0,0), which is off the centre cell. -/
theorem resetGame_fresh (cfg : Settings) (rs : List Sample) (st : GameState)
    (hg : 2 ≤ cfg.gridSize) :
    (∀ st1 rs1, resetGame cfg rs st = some (st1, rs1) →
      st1.snake = [Cell.mk (cfg.gridSize / 2) (cfg.gridSize / 2)] ∧
      st1.direction = Cell.mk 1 0 ∧ st1.score = 0 ∧ st1.isGameOver = false ∧
      st1.isPaused = false) ∧
    (∀ form cfg1 st1 rs1, saveSettings form cfg rs st = some (cfg1, st1, rs1) →
      cfg1.gridSize = cfg.gridSize ∧
      st1.snake = [Cell.mk (cfg.gridSize / 2) (cfg.gridSize / 2)] ∧
      st1.direction = Cell.mk 1 0 ∧ st1.score = 0 ∧ st1.isGameOver = false ∧
      st1.isPaused = false) ∧
    (∀ more, resetGame cfg (zeroDraw :: zeroDraw :: more) st =
      some ({ snake := [Cell.mk (cfg.gridSize / 2) (cfg.gridSize / 2)], food := Cell.mk 0 0,
              direction := Cell.mk 1 0, score := 0, isGameOver := false, isPaused := false },
        more)) ∧
    (∀ form more, saveSettings form cfg (zeroDraw :: zeroDraw :: more) st =
      some ({ cfg with gameSpeed := form.difficulty, wallsAreSolid := form.walls,
                       zenMode := form.zen, headColor := form.head, tailColor := form.tail,
                       foodColor := form.food, bgColor := form.bg },
            { snake := [Cell.mk (cfg.gridSize / 2) (cfg.gridSize / 2)],
              food := Cell.mk 0 0, direction := Cell.mk 1 0, score := 0,
              isGameOver := false, isPaused := false }, more)) := by
  have hreset : ∀ (c : Settings) (more : List Sample), 2 ≤ c.gridSize →
      resetGame c (zeroDraw :: zeroDraw :: more) st =
        some ({ snake := [Cell.mk (c.gridSize / 2) (c.gridSize / 2)], food := Cell.mk 0 0,
                direction := Cell.mk 1 0, score := 0, isGameOver := false,
                isPaused := false }, more) := by
    intro c more hc
    have hhalf : (0 : Int) < c.gridSize / 2 := by omega
    unfold resetGame
    rw [placeFood_first]
    · simp [randomIndex_zeroDraw]
    · rw [any_sameCell_false_iff]
      simp only [randomIndex_zeroDraw, List.nil_append, List.mem_singleton, Cell.mk.injEq,
        not_and]
      intro h0
      omega
  refine ⟨fun st1 rs1 h => resetGame_some cfg rs st st1 rs1 h, ?_, fun more => hreset cfg more hg,
    ?_⟩
  · intro form cfg1 st1 rs1 h
    simp only [saveSettings, Option.map_eq_some', Prod.mk.injEq] at h
    obtain ⟨r, hr, hc, h1, _⟩ := h
    have hfields := resetGame_some _ rs st r.1 r.2 hr
    rw [← h1, ← hc]
    exact ⟨rfl, hfields⟩
  · intro form more
    simp only [saveSettings]
    rw [hreset _ more (by exact hg)]
    rfl

/-- C9 on the default grid: restarting the lost game with the first position drawn (0,0)
gives the one-cell snake at (10,10) heading right with score 0 and both flags off, and saving
the menu ends in the same state. -/
theorem resetGame_fresh_witness :
    resetGame defaultSettings [zeroDraw, zeroDraw] lostState =
      some ({ snake := [Cell.mk 10 10], food := Cell.mk 0 0, direction := Cell.mk 1 0,
              score := 0, isGameOver := false, isPaused := false }, []) ∧
    (saveSettings hardForm defaultSettings [zeroDraw, zeroDraw] lostState).map
        (fun r => r.2.1) =
      some { snake := [Cell.mk 10 10], food := Cell.mk 0 0, direction := Cell.mk 1 0,
             score := 0, isGameOver := false, isPaused := false } := by
  constructor
  · exact ((resetGame_fresh defaultSettings [] lostState (by decide)).2.2.1 []).trans
      (by decide)
  · decide

/-- C10: when some cell of the grid is off the snake, every state `placeFood` returns, on
any draws, differs from the one it was given in `food` only, and its food cell is within
`[0, gridSize)` on both axes, with the product `Math.random() * gridSize` rounded as a double,
and is no cell of the snake; and on a grid of size at most `2 ^ 26` there are draws on which
`placeFood` returns. -/
theorem placeFood_valid (cfg : Settings) (st : GameState)
    (hfree : ∃ c : Cell, (0 ≤ c.x ∧ c.x < cfg.gridSize) ∧ (0 ≤ c.y ∧ c.y < cfg.gridSize) ∧
      c ∉ st.snake) :
    (∀ rs st1 rs1, placeFood cfg rs st = some (st1, rs1) →
      (0 ≤ st1.food.x ∧ st1.food.x < cfg.gridSize) ∧
      (0 ≤ st1.food.y ∧ st1.food.y < cfg.gridSize) ∧
      st1.food ∉ st.snake ∧ st1 = { st with food := st1.food }) ∧
    (cfg.gridSize ≤ 2 ^ 26 → ∃ rs st1 rs1, placeFood cfg rs st = some (st1, rs1)) := by
  obtain ⟨c, hx, hy, hc⟩ := hfree
  have hpos : 0 < cfg.gridSize := by omega
  refine ⟨?_, ?_⟩
  · intro rs st1 rs1 h
    obtain ⟨hst, hoff, rx, ry, hfood⟩ := placeFood_some cfg rs st st1 rs1 h
    refine ⟨?_, ?_, (any_sameCell_false_iff _ _).mp hoff, hst⟩
    · rw [hfood]
      exact ⟨randomIndex_nonneg rx hpos.le, randomIndex_lt rx hpos⟩
    · rw [hfood]
      exact ⟨randomIndex_nonneg ry hpos.le, randomIndex_lt ry hpos⟩
  · intro hsize
    refine ⟨[drawOf c.x cfg.gridSize, drawOf c.y cfg.gridSize], _, [],
      placeFood_first cfg _ _ [] st ?_⟩
    rw [any_sameCell_false_iff, randomIndex_drawOf c.x cfg.gridSize hx.1 hx.2 hsize,
      randomIndex_drawOf c.y cfg.gridSize hy.1 hy.2 hsize]
    exact hc

/-- C10 on the default grid with the coiled snake: the first position drawn, (5,6), is on the
snake and the second, (3,7), is returned; and on two draws of the double nearest to 0.95, whose
product with 20 rounds up to 19, the position returned is (19,19), inside the grid. -/
theorem placeFood_valid_witness :
    placeFood defaultSettings
        [draw20 5 (by decide), draw20 6 (by decide), draw20 3 (by decide), draw20 7 (by decide)]
        coiledState = some ({ coiledState with food := Cell.mk 3 7 }, []) ∧
    ((0 : Int) ≤ 3 ∧ (3 : Int) < 20) ∧ ((0 : Int) ≤ 7 ∧ (7 : Int) < 20) ∧
    Cell.mk 3 7 ∉ coiledState.snake ∧
    placeFood defaultSettings [nearly95, nearly95] coiledState =
      some ({ coiledState with food := Cell.mk 19 19 }, []) ∧
    ((0 : Int) ≤ 19 ∧ (19 : Int) < 20) :=
  ⟨by decide,
   ((placeFood_valid defaultSettings coiledState ⟨Cell.mk 0 0, by decide⟩).1
      [draw20 5 (by decide), draw20 6 (by decide), draw20 3 (by decide), draw20 7 (by decide)]
      { coiledState with food := Cell.mk 3 7 } [] (by decide)).1,
   ((placeFood_valid defaultSettings coiledState ⟨Cell.mk 0 0, by decide⟩).1
      [draw20 5 (by decide), draw20 6 (by decide), draw20 3 (by decide), draw20 7 (by decide)]
      { coiledState with food := Cell.mk 3 7 } [] (by decide)).2.1,
   ((placeFood_valid defaultSettings coiledState ⟨Cell.mk 0 0, by decide⟩).1
      [draw20 5 (by decide), draw20 6 (by decide), draw20 3 (by decide), draw20 7 (by decide)]
      { coiledState with food := Cell.mk 3 7 } [] (by decide)).2.2.1,
   by decide,
   ((placeFood_valid defaultSettings coiledState ⟨Cell.mk 0 0, by decide⟩).1
      [nearly95, nearly95] { coiledState with food := Cell.mk 19 19 } [] (by decide)).1⟩

/-- C11: a pause key (`p`, `P` or `Escape`) flips `isPaused` when the game is not over and
changes nothing when it is over; the snake, the food, the score, the heading and `isGameOver`
stay in both cases, and no draw is used. -/
theorem handleKeyDown_pause (cfg : Settings) (rs : List Sample) (st : GameState)
    (key : String) (hk : key ∈ pauseKeys) :
    (st.isGameOver = false →
      handleKeyDown cfg rs key st = some ({ st with isPaused := !st.isPaused }, rs)) ∧
    (st.isGameOver = true → handleKeyDown cfg rs key st = some (st, rs)) := by
  simp only [pauseKeys, List.mem_cons, List.mem_singleton, List.not_mem_nil, or_false] at hk
  rcases hk with hk | hk | hk <;> subst hk <;> constructor <;> intro h <;>
    simp [handleKeyDown, togglePause, h]

/-- C11 on the start state and on the lost game: `Escape` pauses the running game, and `p`
leaves the lost game as it is. -/
theorem handleKeyDown_pause_witness :
    handleKeyDown defaultSettings [] "Escape" startState = some (pausedState, []) ∧
    handleKeyDown defaultSettings [] "p" lostState = some (lostState, []) :=
  ⟨(handleKeyDown_pause defaultSettings [] startState "Escape" (by decide)).1 rfl,
   (handleKeyDown_pause defaultSettings [] lostState "p" (by decide)).2 rfl⟩

/-- A tick of a game that is over or paused returns the state and the draws it was given. -/
theorem mainGameLoop_stopped (cfg : Settings) (rs : List Sample) (st : GameState)
    (h : st.isGameOver = true ∨ st.isPaused = true) :
    mainGameLoop cfg rs st = some (st, rs) := by
  unfold mainGameLoop
  rcases h with h | h
  · simp [h]
  · simp [h]

/-- C12: when the game is over or paused, `mainGameLoop` leaves the snake, the food, the score,
the heading and both flags as they are (and uses no draw), and so does any number of ticks in a
row. -/
theorem mainGameLoop_frozen (cfg : Settings) (rs : List Sample) (st : GameState)
    (h : st.isGameOver = true ∨ st.isPaused = true) :
    mainGameLoop cfg rs st = some (st, rs) ∧
    ∀ n : Nat, run (List.replicate n Event.tick) cfg rs st = some (cfg, st, rs) := by
  refine ⟨mainGameLoop_stopped cfg rs st h, ?_⟩
  intro n
  induction n with
  | zero => rfl
  | succ n ih =>
    simp only [List.replicate_succ, run, step, mainGameLoop_stopped cfg rs st h, Option.map_some']
    exact ih

/-- C12 on the paused game and on the lost game: three ticks in a row change nothing. -/
theorem mainGameLoop_frozen_witness :
    run [Event.tick, Event.tick, Event.tick] defaultSettings [] pausedState =
      some (defaultSettings, pausedState, []) ∧
    run [Event.tick, Event.tick, Event.tick] defaultSettings [] lostState =
      some (defaultSettings, lostState, []) :=
  ⟨(mainGameLoop_frozen defaultSettings [] pausedState (Or.inr rfl)).2 3,
   (mainGameLoop_frozen defaultSettings [] lostState (Or.inl rfl)).2 3⟩

/-- C13: when the game is paused or over, a movement key (an arrow key or `w`, `a`, `s`, `d`)
leaves the heading and the rest of the state as they are. -/
theorem handleKeyDown_move_ignored (cfg : Settings) (rs : List Sample) (st : GameState)
    (key : String) (dir : Cell)
    (h : st.isPaused = true ∨ st.isGameOver = true) (hk : (key, dir) ∈ movementKeys) :
    handleKeyDown cfg rs key st = some (st, rs) := by
  simp only [movementKeys, List.mem_cons, Prod.mk.injEq, List.mem_singleton,
    List.not_mem_nil, or_false] at hk
  rcases hk with ⟨hk, _⟩ | ⟨hk, _⟩ | ⟨hk, _⟩ | ⟨hk, _⟩ | ⟨hk, _⟩ | ⟨hk, _⟩ | ⟨hk, _⟩ |
    ⟨hk, _⟩ <;> subst hk <;> rcases h with h | h <;> simp [handleKeyDown, h]

/-- C13 on the paused game, which heads right, and on the lost game, which heads up: `w` and
`ArrowLeft` change nothing. -/
theorem handleKeyDown_move_ignored_witness :
    handleKeyDown defaultSettings [] "w" pausedState = some (pausedState, []) ∧
    handleKeyDown defaultSettings [] "ArrowLeft" lostState = some (lostState, []) :=
  ⟨handleKeyDown_move_ignored defaultSettings [] pausedState "w" (Cell.mk 0 (-1))
      (Or.inl rfl) (by decide),
   handleKeyDown_move_ignored defaultSettings [] lostState "ArrowLeft" (Cell.mk (-1) 0)
      (Or.inr rfl) (by decide)⟩

/-- C14: `handleKeyDown` returns the state and the draws it was given for the space key when
the game is not over, and for every key that is none of the recognised keys; for the space key
when the game is over it is the call of `resetGame`. -/
theorem handleKeyDown_other_keys (cfg : Settings) (rs : List Sample) (st : GameState)
    (key : String) :
    (key = " " → st.isGameOver = false → handleKeyDown cfg rs key st = some (st, rs)) ∧
    (key ∉ recognisedKeys → handleKeyDown cfg rs key st = some (st, rs)) ∧
    (key = " " → st.isGameOver = true → handleKeyDown cfg rs key st = resetGame cfg rs st) := by
  refine ⟨?_, ?_, ?_⟩
  · intro hk h
    subst hk
    simp [handleKeyDown, h]
  · intro hk
    simp only [recognisedKeys, List.mem_cons, List.mem_singleton, List.not_mem_nil, or_false,
      not_or] at hk
    obtain ⟨h1, h2, h3, h4, h5, h6, h7, h8, h9, h10, h11, h12⟩ := hk
    simp [handleKeyDown, h1, h2, h3, h4, h5, h6, h7, h8, h9, h10, h11, h12]
  · intro hk h
    subst hk
    simp [handleKeyDown, h]

/-- C14 on the start state and on the lost game: the space key and the key `x` change nothing
in the running game, `x` changes nothing in the lost game, and the space key restarts the lost
game. -/
theorem handleKeyDown_other_keys_witness :
    handleKeyDown defaultSettings [] " " startState = some (startState, []) ∧
    handleKeyDown defaultSettings [] "x" startState = some (startState, []) ∧
    handleKeyDown defaultSettings [] "x" lostState = some (lostState, []) ∧
    handleKeyDown defaultSettings [zeroDraw, zeroDraw] " " lostState =
      some ({ snake := [Cell.mk 10 10], food := Cell.mk 0 0, direction := Cell.mk 1 0,
              score := 0, isGameOver := false, isPaused := false }, []) :=
  ⟨(handleKeyDown_other_keys defaultSettings [] startState " ").1 rfl rfl,
   (handleKeyDown_other_keys defaultSettings [] startState "x").2.1 (by decide),
   (handleKeyDown_other_keys defaultSettings [] lostState "x").2.1 (by decide),
   ((handleKeyDown_other_keys defaultSettings [zeroDraw, zeroDraw] lostState " ").2.2
      rfl rfl).trans (by decide)⟩

theorem lerp_zero (start endValue : Int) : lerp start endValue 0 = start := by
  simp [lerp]

theorem lerp_one (start endValue : Int) : lerp start endValue 1 = endValue := by
  simp [lerp]

theorem percentage_first (snakeLength : Nat) : percentage snakeLength 0 = 0 := by
  simp [percentage]

theorem percentage_last (snakeLength : Nat) (h : 1 < snakeLength) :
    percentage snakeLength (snakeLength - 1) = 1 := by
  have h1 : snakeLength ≠ 1 := by omega
  have h2 : ((snakeLength - 1 : Nat) : ℚ) = (snakeLength : ℚ) - 1 := by
    rw [Nat.cast_sub (by omega)]
    simp
  have h3 : (snakeLength : ℚ) - 1 ≠ 0 := by
    rw [← h2]
    exact_mod_cast (show snakeLength - 1 ≠ 0 by omega)
  simp only [percentage, h1, if_false, h2]
  exact div_self h3

/-- C15: for all integer channel values, `lerp` at 0 is the start value and at 1 the end value;
in `draw` the segment of index 0 of a snake of any length (at least 1) is painted in the start
colour, the colour of the head, and the segment of index `N - 1` of a snake of length `N > 1`
in the end colour, the colour of the tail. -/
theorem draw_end_colours (startColor endColor : Rgb) :
    (∀ s e : Int, lerp s e 0 = s ∧ lerp s e 1 = e) ∧
    (∀ snake : List Cell, 1 ≤ snake.length →
      (draw startColor endColor snake)[0]? = some startColor) ∧
    (∀ snake : List Cell, 1 < snake.length →
      (draw startColor endColor snake)[snake.length - 1]? = some endColor) := by
  refine ⟨fun s e => ⟨lerp_zero s e, lerp_one s e⟩, ?_, ?_⟩
  · intro snake h
    have h0 : 0 < snake.length := h
    simp [draw, List.getElem?_range h0, percentage_first, lerp_zero]
  · intro snake h
    have h0 : snake.length - 1 < snake.length := by omega
    simp [draw, List.getElem?_range h0, percentage_last _ h, lerp_one]

/-- C15 with the default colours `#00AA00` and `#00FF00`, that is (0,170,0) and (0,255,0): a
snake of one cell is painted (0,170,0), and the third cell of a snake of three (0,255,0). -/
theorem draw_end_colours_witness :
    (draw (Rgb.mk 0 170 0) (Rgb.mk 0 255 0) [Cell.mk 10 10])[0]? = some (Rgb.mk 0 170 0) ∧
    (draw (Rgb.mk 0 170 0) (Rgb.mk 0 255 0) [Cell.mk 5 5, Cell.mk 5 6, Cell.mk 6 6])[2]? =
      some (Rgb.mk 0 255 0) :=
  ⟨(draw_end_colours (Rgb.mk 0 170 0) (Rgb.mk 0 255 0)).2.1 [Cell.mk 10 10] (by decide),
   (draw_end_colours (Rgb.mk 0 170 0) (Rgb.mk 0 255 0)).2.2
      [Cell.mk 5 5, Cell.mk 5 6, Cell.mk 6 6] (by decide)⟩

/-- The three ways `update` returns for a snake with a first cell: with the state as it was but
possibly `isGameOver` set (a collision, or the wall in zen mode); after eating, with the new
head in front, the score plus one and a food off the grown snake; after a move, with the new
head in front and the last cell gone.  In the last two the new head has passed the wall test
and the self-hit test. -/
theorem update_some_cases (cfg : Settings) (rs : List Sample) (st : GameState)
    (segment0 : Cell) (rest : List Cell) (nh : Cell) (st1 : GameState) (rs1 : List Sample)
    (hs : st.snake = segment0 :: rest) (hnh : nh = newHead cfg st.direction segment0)
    (h : update cfg rs st = some (st1, rs1)) :
    (st1 = st ∨ st1 = { st with isGameOver := true }) ∨
    ((¬ (cfg.wallsAreSolid = true ∧
          (segment0.x + st.direction.x < 0 ∨ cfg.gridSize ≤ segment0.x + st.direction.x ∨
           segment0.y + st.direction.y < 0 ∨ cfg.gridSize ≤ segment0.y + st.direction.y))) ∧
      (¬ (cfg.zenMode = false ∧ nh ∈ rest)) ∧
      ((nh = st.food ∧ st1.food ∉ nh :: st.snake ∧
          st1 = { st with snake := nh :: st.snake, score := st.score + 1, food := st1.food }) ∨
        (nh ≠ st.food ∧ st1 = { st with snake := nh :: st.snake.dropLast }))) := by
  rw [update_exits cfg rs st segment0 rest nh hs hnh] at h
  split_ifs at h with h1 h2 h3 h4
  · left
    simp only [Option.some.injEq, Prod.mk.injEq] at h
    exact Or.inr h.1.symm
  · left
    simp only [Option.some.injEq, Prod.mk.injEq] at h
    exact Or.inl h.1.symm
  · left
    simp only [Option.some.injEq, Prod.mk.injEq] at h
    exact Or.inr h.1.symm
  · right
    obtain ⟨hst, hoff, _⟩ := placeFood_some cfg rs _ st1 rs1 h
    refine ⟨h1, h3, Or.inl ⟨h4, ?_, hst⟩⟩
    exact (any_sameCell_false_iff _ _).mp hoff
  · right
    simp only [Option.some.injEq, Prod.mk.injEq] at h
    exact ⟨h1, h3, Or.inr ⟨h4, h.1.symm⟩⟩

/-- The one way `update` does not return: the new head has passed the wall test and the
self-hit test and is on the food, and `placeFood`, called with the new head in front and the
score plus one, does not return. -/
theorem update_none_cases (cfg : Settings) (rs : List Sample) (st : GameState)
    (h : update cfg rs st = none) :
    ∃ segment0 rest nh, st.snake = segment0 :: rest ∧ nh = newHead cfg st.direction segment0 ∧
      (¬ (cfg.wallsAreSolid = true ∧
          (segment0.x + st.direction.x < 0 ∨ cfg.gridSize ≤ segment0.x + st.direction.x ∨
           segment0.y + st.direction.y < 0 ∨ cfg.gridSize ≤ segment0.y + st.direction.y))) ∧
      (¬ (cfg.zenMode = false ∧ nh ∈ rest)) ∧ nh = st.food ∧
      placeFood cfg rs { st with snake := nh :: st.snake, score := st.score + 1 } = none := by
  cases hs : st.snake with
  | nil => simp [update, hs] at h
  | cons segment0 rest =>
    refine ⟨segment0, rest, _, rfl, rfl, ?_⟩
    rw [update_exits cfg rs st segment0 rest _ hs rfl] at h
    split_ifs at h with h1 h2 h3
    rw [hs] at h
    exact ⟨h1, h2, h3, h⟩

/-- A new head that has passed the wall test is inside the grid, on a grid of size at least 1. -/
theorem newHead_inGrid (cfg : Settings) (d segment0 : Cell) (hg : 1 ≤ cfg.gridSize)
    (hwall : ¬ (cfg.wallsAreSolid = true ∧
      (segment0.x + d.x < 0 ∨ cfg.gridSize ≤ segment0.x + d.x ∨
       segment0.y + d.y < 0 ∨ cfg.gridSize ≤ segment0.y + d.y))) :
    InGrid cfg.gridSize (newHead cfg d segment0) := by
  unfold InGrid
  cases hw : cfg.wallsAreSolid
  · simp only [newHead, hw, Bool.false_eq_true, if_false, wrapHead_x, wrapHead_y]
    constructor <;> split_ifs <;> omega
  · simp only [hw, true_and] at hwall
    simp only [newHead, hw, if_true]
    omega

/-- C16: with zen mode off and a grid of size at least 2, the cells of the snake are pairwise
distinct in every state `resetGame` returns, and from a state with a unit heading whose snake has
pairwise distinct cells they are pairwise distinct in every state `update` returns, whether the
tick moves, eats or collides; when `update` does not return it is inside `placeFood`, entered
with a snake of pairwise distinct cells. -/
theorem snake_distinct_kept (cfg : Settings) (rs : List Sample) (st : GameState)
    (hz : cfg.zenMode = false) (hg : 2 ≤ cfg.gridSize) :
    (∀ st1 rs1, resetGame cfg rs st = some (st1, rs1) → st1.snake.Nodup) ∧
    (UnitHeading st.direction → st.snake.Nodup →
      (∀ st1 rs1, update cfg rs st = some (st1, rs1) → st1.snake.Nodup) ∧
      (update cfg rs st = none →
        ∃ st0, st0.snake.Nodup ∧ placeFood cfg rs st0 = none)) := by
  refine ⟨?_, ?_⟩
  · intro st1 rs1 h
    rw [(resetGame_some cfg rs st st1 rs1 h).1]
    exact List.nodup_singleton _
  · intro hd hnd
    have hfresh : ∀ segment0 rest, st.snake = segment0 :: rest →
        ¬ (cfg.zenMode = false ∧ newHead cfg st.direction segment0 ∈ rest) →
        newHead cfg st.direction segment0 ∉ st.snake := by
      intro segment0 rest hs hself hmem
      rw [hs, List.mem_cons] at hmem
      rcases hmem with hmem | hmem
      · exact newHead_ne_segment0 cfg st.direction segment0 hd (Or.inr hg) hmem
      · exact hself ⟨hz, hmem⟩
    refine ⟨?_, ?_⟩
    · intro st1 rs1 h
      cases hs : st.snake with
      | nil =>
        have hu : update cfg rs st = some (st, rs) := by simp [update, hs]
        rw [hu] at h
        simp only [Option.some.injEq, Prod.mk.injEq] at h
        rw [← h.1]
        exact hnd
      | cons segment0 rest =>
        rcases update_some_cases cfg rs st segment0 rest _ st1 rs1 hs rfl h with
          (h1 | h1) | ⟨_, hself, (⟨_, _, h1⟩ | ⟨_, h1⟩)⟩
        · rw [h1]
          exact hnd
        · rw [h1]
          exact hnd
        · rw [h1]
          exact List.nodup_cons.mpr ⟨hfresh segment0 rest hs hself, hnd⟩
        · rw [h1]
          refine List.nodup_cons.mpr ⟨?_, hnd.sublist (List.dropLast_sublist _)⟩
          intro hmem
          exact hfresh segment0 rest hs hself (List.dropLast_subset _ hmem)
    · intro h
      obtain ⟨segment0, rest, nh, hs, hnh, _, hself, _, hp⟩ := update_none_cases cfg rs st h
      refine ⟨_, ?_, hp⟩
      rw [hnh] at hself ⊢
      exact List.nodup_cons.mpr ⟨hfresh segment0 rest hs hself, hnd⟩

/-- C16 on the default grid: the restart of the lost game gives a snake of one cell, and the
tick of the two-cell snake gives `[(11,10),(10,10)]`, both of pairwise distinct cells. -/
theorem snake_distinct_kept_witness :
    update defaultSettings [] twoCellState =
      some ({ twoCellState with snake := [Cell.mk 11 10, Cell.mk 10 10] }, []) ∧
    ({ twoCellState with snake := [Cell.mk 11 10, Cell.mk 10 10] } : GameState).snake.Nodup ∧
    ∀ st1 rs1, resetGame defaultSettings [zeroDraw, zeroDraw] lostState = some (st1, rs1) →
      st1.snake.Nodup :=
  ⟨by decide,
   ((snake_distinct_kept defaultSettings [] twoCellState rfl (by decide)).2
      (by decide) (by decide)).1 _ [] (by decide),
   (snake_distinct_kept defaultSettings [zeroDraw, zeroDraw] lostState rfl (by decide)).1⟩

/-- The loop of `placeFood` never returns, whatever the draws, when every position that can
be drawn is on the snake. -/
theorem placeFood_blocked (cfg : Settings) (st : GameState)
    (hfull : ∀ rx ry : Sample,
      Cell.mk (randomIndex rx cfg.gridSize) (randomIndex ry cfg.gridSize) ∈ st.snake) :
    ∀ rs : List Sample, placeFood cfg rs st = none
  | [] => by simp [placeFood]
  | [_] => by simp [placeFood]
  | rx :: ry :: rest => by
    have hon := (any_sameCell_iff st.snake _).mpr (hfull rx ry)
    simp only [placeFood, hon, Bool.not_true, Bool.false_eq_true, if_false]
    exact placeFood_blocked cfg st hfull rest

/-- On a grid of size 0 or 1 no game starts: the one position that can be drawn is the cell
of the snake, and `resetGame` does not return, whatever the draws. -/
theorem resetGame_small_grid (cfg : Settings) (rs : List Sample) (st : GameState)
    (h0 : 0 ≤ cfg.gridSize) (h1 : cfg.gridSize ≤ 1) : resetGame cfg rs st = none := by
  unfold resetGame
  apply placeFood_blocked
  intro rx ry
  have hzero : ∀ r : Sample, randomIndex r cfg.gridSize = 0 := by
    intro r
    have hcases : cfg.gridSize = 0 ∨ cfg.gridSize = 1 := by omega
    rcases hcases with hg | hg
    · simp [randomIndex, hg]
    · have hdiv : r.num / 2 ^ r.exp = 0 := Nat.div_eq_of_lt r.lt
      simp only [randomIndex, hg, Int.sign_one, one_mul, Int.natAbs_one, mul_one,
        roundDouble_small r.num r.significand]
      rw [← Int.ofNat_ediv, hdiv]
      rfl
  have hhalf : cfg.gridSize / 2 = 0 := by omega
  simp [hzero, hhalf]

/-- C17: on a grid of any size (a `gridSize` that is not negative) every state `resetGame`
returns has a snake that is not empty and whose cells are all inside the grid; from a state
whose snake is not empty and has all its cells inside the grid, every state `update` returns
has such a snake again, for both wall modes, both zen settings and any heading, and when
`update` does not return it is inside `placeFood`, entered with such a snake. -/
theorem snake_in_grid_kept (cfg : Settings) (rs : List Sample) (st : GameState) :
    (0 ≤ cfg.gridSize → ∀ st1 rs1, resetGame cfg rs st = some (st1, rs1) →
      st1.snake ≠ [] ∧ ∀ c ∈ st1.snake, InGrid cfg.gridSize c) ∧
    (st.snake ≠ [] → (∀ c ∈ st.snake, InGrid cfg.gridSize c) →
      (∀ st1 rs1, update cfg rs st = some (st1, rs1) →
        st1.snake ≠ [] ∧ ∀ c ∈ st1.snake, InGrid cfg.gridSize c) ∧
      (update cfg rs st = none →
        ∃ st0, (st0.snake ≠ [] ∧ ∀ c ∈ st0.snake, InGrid cfg.gridSize c) ∧
          placeFood cfg rs st0 = none)) := by
  refine ⟨?_, ?_⟩
  · intro hg0 st1 rs1 h
    have hg : 1 ≤ cfg.gridSize := by
      by_contra hlt
      have hzero : cfg.gridSize = 0 := by omega
      have hnone : resetGame cfg rs st = none := by
        unfold resetGame
        apply placeFood_blocked
        intro rx ry
        simp [randomIndex, hzero]
      rw [hnone] at h
      exact absurd h (by simp)
    rw [(resetGame_some cfg rs st st1 rs1 h).1]
    refine ⟨List.cons_ne_nil _ _, ?_⟩
    intro c hc
    rw [List.mem_singleton] at hc
    subst hc
    unfold InGrid
    simp only
    omega
  · intro hne hin
    obtain ⟨segment0, rest, hs⟩ := List.exists_cons_of_ne_nil hne
    have hg : 1 ≤ cfg.gridSize := by
      have h0 := hin segment0 (by rw [hs]; exact List.mem_cons_self _ _)
      unfold InGrid at h0
      omega
    refine ⟨?_, ?_⟩
    · intro st1 rs1 h
      rcases update_some_cases cfg rs st segment0 rest _ st1 rs1 hs rfl h with
        (h1 | h1) | ⟨hwall, _, (⟨_, _, h1⟩ | ⟨_, h1⟩)⟩
      · rw [h1]
        exact ⟨hne, hin⟩
      · rw [h1]
        exact ⟨hne, hin⟩
      · rw [h1]
        refine ⟨List.cons_ne_nil _ _, ?_⟩
        intro c hc
        rcases List.mem_cons.mp hc with hc | hc
        · rw [hc]
          exact newHead_inGrid cfg st.direction segment0 hg hwall
        · exact hin c hc
      · rw [h1]
        refine ⟨List.cons_ne_nil _ _, ?_⟩
        intro c hc
        rcases List.mem_cons.mp hc with hc | hc
        · rw [hc]
          exact newHead_inGrid cfg st.direction segment0 hg hwall
        · exact hin c (List.dropLast_subset _ hc)
    · intro h
      obtain ⟨s0, r0, nh, hs0, hnh, hwall, _, _, hp⟩ := update_none_cases cfg rs st h
      refine ⟨_, ⟨List.cons_ne_nil nh st.snake, ?_⟩, hp⟩
      intro c hc
      rcases List.mem_cons.mp hc with hc | hc
      · rw [hc, hnh]
        exact newHead_inGrid cfg st.direction s0 hg hwall
      · exact hin c hc

/-- C17 on the default grid with the walls open: the head (0,10) heading `(-1,0)` wraps to
(19,10), inside the grid; and the restarted game has its one cell inside the grid. -/
theorem snake_in_grid_kept_witness :
    (∀ c ∈ [Cell.mk 19 10], InGrid 20 c) ∧
    ∀ st1 rs1, resetGame defaultSettings [zeroDraw, zeroDraw] lostState = some (st1, rs1) →
      st1.snake ≠ [] ∧ ∀ c ∈ st1.snake, InGrid defaultSettings.gridSize c :=
  ⟨(((snake_in_grid_kept { defaultSettings with wallsAreSolid := false } []
      { startState with snake := [Cell.mk 0 10], direction := Cell.mk (-1) 0 }).2
        (by decide) (by decide)).1
      { startState with snake := [Cell.mk 19 10], direction := Cell.mk (-1) 0 } []
        (by decide)).2,
   (snake_in_grid_kept defaultSettings [zeroDraw, zeroDraw] lostState).1 (by decide)⟩

/-! ## Invariants of the runs -/

/-- The ways `update` returns, for any snake: the state as it was, possibly with `isGameOver`
set; or, for a snake with a first cell and some new head `nh`, the state after eating or after
a move. -/
theorem update_effects (cfg : Settings) (rs : List Sample) (st st1 : GameState)
    (rs1 : List Sample) (h : update cfg rs st = some (st1, rs1)) :
    (st1 = st ∨ st1 = { st with isGameOver := true }) ∨
    ∃ nh, st.snake ≠ [] ∧
      ((nh = st.food ∧ st1.food ∉ nh :: st.snake ∧
          st1 = { st with snake := nh :: st.snake, score := st.score + 1, food := st1.food }) ∨
        (nh ≠ st.food ∧ st1 = { st with snake := nh :: st.snake.dropLast })) := by
  by_cases hne : st.snake = []
  · have hu : update cfg rs st = some (st, rs) := by simp [update, hne]
    rw [hu] at h
    simp only [Option.some.injEq, Prod.mk.injEq] at h
    exact Or.inl (Or.inl h.1.symm)
  · obtain ⟨segment0, rest, hs⟩ := List.exists_cons_of_ne_nil hne
    rcases update_some_cases cfg rs st segment0 rest _ st1 rs1 hs rfl h with h1 | ⟨_, _, h1⟩
    · exact Or.inl h1
    · exact Or.inr ⟨_, hne, h1⟩

/-- The ways the handler of an event returns: a restart (`resetGame`, under settings with the
same `gridSize`); the state as it was; a flip of `isPaused` in a game that is not over; a new
heading in a running game; or `update` in a running game.  The settings change in a restart
only. -/
theorem step_cases (ev : Event) (cfg cfg1 : Settings) (rs rs1 : List Sample)
    (st st1 : GameState) (h : step ev cfg rs st = some (cfg1, st1, rs1)) :
    (resetGame cfg1 rs st = some (st1, rs1) ∧ cfg1.gridSize = cfg.gridSize) ∨
    (cfg1 = cfg ∧
      (st1 = st ∨
       (st.isGameOver = false ∧ st1 = { st with isPaused := !st.isPaused }) ∨
       (st.isGameOver = false ∧ st.isPaused = false ∧
          ∃ d, st1 = { st with direction := d }) ∨
       (st.isGameOver = false ∧ st.isPaused = false ∧
          update cfg rs st = some (st1, rs1)))) := by
  cases ev with
  | tick =>
    simp only [step, Option.map_eq_some', Prod.mk.injEq] at h
    obtain ⟨r, hr, hc, h1, h2⟩ := h
    right
    refine ⟨hc.symm, ?_⟩
    unfold mainGameLoop at hr
    split_ifs at hr with ho hp
    · simp only [Option.some.injEq] at hr
      rw [← hr] at h1
      exact Or.inl h1.symm
    · simp only [Option.some.injEq] at hr
      rw [← hr] at h1
      exact Or.inl h1.symm
    · refine Or.inr (Or.inr (Or.inr ⟨by simpa using ho, by simpa using hp, ?_⟩))
      rw [hr, ← h1, ← h2]
  | key k =>
    simp only [step, Option.map_eq_some', Prod.mk.injEq] at h
    obtain ⟨r, hr, hc, h1, h2⟩ := h
    have hr1 : handleKeyDown cfg rs k st = some (st1, rs1) := by
      rw [hr, ← h1, ← h2]
    clear hr h1 h2
    simp only [handleKeyDown] at hr1
    split_ifs at hr1 with ha hb hc1
    · left
      rw [← hc]
      exact ⟨hr1, rfl⟩
    · right
      refine ⟨hc.symm, ?_⟩
      simp only [Option.some.injEq, Prod.mk.injEq] at hr1
      unfold togglePause at hr1
      split_ifs at hr1 with ho
      · exact Or.inl hr1.1.symm
      · exact Or.inr (Or.inl ⟨by simpa using ho, hr1.1.symm⟩)
    · right
      simp only [Option.some.injEq, Prod.mk.injEq] at hr1
      exact ⟨hc.symm, Or.inl hr1.1.symm⟩
    all_goals
      right
      simp only [Option.some.injEq, Prod.mk.injEq] at hr1
      simp only [Bool.or_eq_true, not_or, Bool.not_eq_true] at hc1
      exact ⟨hc.symm, Or.inr (Or.inr (Or.inl ⟨hc1.2, hc1.1, _, hr1.1.symm⟩))⟩
  | save form =>
    simp only [step, saveSettings, Option.map_eq_some', Prod.mk.injEq] at h
    obtain ⟨r, hr, hc, h1, h2⟩ := h
    left
    rw [← hc, ← h1, ← h2]
    exact ⟨hr, rfl⟩

/-- A property of the game variables that every restart establishes and every handler keeps
holds at the end of every run. -/
theorem play_invariant (P : GameState → Prop)
    (hreset : ∀ cfg rs st st1 rs1, resetGame cfg rs st = some (st1, rs1) → P st1)
    (hstep : ∀ ev cfg rs st cfg1 st1 rs1, P st →
      step ev cfg rs st = some (cfg1, st1, rs1) → P st1)
    (cfg : Settings) (rs : List Sample) (st0 : GameState) (evs : List Event)
    (cfg1 : Settings) (st1 : GameState) (rs1 : List Sample)
    (h : play cfg rs st0 evs = some (cfg1, st1, rs1)) : P st1 := by
  have hrun : ∀ (evs : List Event) (cfg : Settings) (rs : List Sample) (st : GameState),
      P st → run evs cfg rs st = some (cfg1, st1, rs1) → P st1 := by
    intro evs
    induction evs with
    | nil =>
      intro cfg rs st hP hr
      simp only [run, Option.some.injEq, Prod.mk.injEq] at hr
      rw [← hr.2.1]
      exact hP
    | cons ev evs ih =>
      intro cfg rs st hP hr
      simp only [run] at hr
      cases hst : step ev cfg rs st with
      | none => simp [hst] at hr
      | some r =>
        rw [hst] at hr
        exact ih r.1 r.2.2 r.2.1 (hstep ev cfg rs st r.1 r.2.1 r.2.2 hP hst) hr
  unfold play at h
  cases hres : resetGame cfg rs st0 with
  | none => simp [hres] at h
  | some r =>
    rw [hres] at h
    exact hrun evs cfg r.2 r.1 (hreset cfg rs st0 r.1 r.2 hres) h

/-- Every state `resetGame` returns has its food off the snake. -/
theorem resetGame_food (cfg : Settings) (rs : List Sample) (st st1 : GameState)
    (rs1 : List Sample) (h : resetGame cfg rs st = some (st1, rs1)) :
    st1.food ∉ st1.snake := by
  unfold resetGame at h
  obtain ⟨hst, hoff, _⟩ := placeFood_some cfg rs _ st1 rs1 h
  have hsn : st1.snake = [Cell.mk (cfg.gridSize / 2) (cfg.gridSize / 2)] := by
    rw [hst]
    simp
  rw [hsn]
  simpa using (any_sameCell_false_iff _ _).mp hoff

/-- C18: in every state reached from the load of the script (the call of `resetGame`) by
timer ticks, key events and saves of the menu, in any order and on any draws, `isPaused` and
`isGameOver` are not both true. -/
theorem flags_never_both (cfg : Settings) (rs : List Sample) (st0 : GameState)
    (evs : List Event) (cfg1 : Settings) (st1 : GameState) (rs1 : List Sample)
    (h : play cfg rs st0 evs = some (cfg1, st1, rs1)) :
    ¬ (st1.isPaused = true ∧ st1.isGameOver = true) := by
  refine play_invariant (fun st => ¬ (st.isPaused = true ∧ st.isGameOver = true)) ?_ ?_
    cfg rs st0 evs cfg1 st1 rs1 h
  · intro c r s s1 r1 hres
    obtain ⟨_, _, _, ho, _⟩ := resetGame_some c r s s1 r1 hres
    simp [ho]
  · intro ev c r s c1 s1 r1 hP hst
    rcases step_cases ev c c1 r r1 s s1 hst with ⟨hres, _⟩ |
      ⟨_, h1 | ⟨ho, h1⟩ | ⟨_, _, d, h1⟩ | ⟨_, hp, hu⟩⟩
    · obtain ⟨_, _, _, ho, _⟩ := resetGame_some c1 r s s1 r1 hres
      simp [ho]
    · rw [h1]
      exact hP
    · rw [h1]
      simp [ho]
    · rw [h1]
      exact hP
    · rcases update_effects c r s s1 r1 hu with (h1 | h1) | ⟨_, _, ⟨_, _, h1⟩ | ⟨_, h1⟩⟩ <;>
        rw [h1] <;> simp [hp]

/-- C18 on the sample game, which eats, is paused, ticks, is resumed, turns and ticks: the
flags of its last state are not both true. -/
theorem flags_never_both_witness :
    play defaultSettings sampleDraws lostState sampleEvents =
      some (defaultSettings, sampleEnd, []) ∧
    ¬ (sampleEnd.isPaused = true ∧ sampleEnd.isGameOver = true) :=
  ⟨by decide,
   flags_never_both defaultSettings sampleDraws lostState sampleEvents defaultSettings
      sampleEnd [] (by decide)⟩

/-- C19: in every state reached from the load of the script by timer ticks, key events and
saves of the menu, on any draws on which every call of `placeFood` returns, the food is no cell
of the snake, in zen mode and outside it. -/
theorem food_never_on_snake (cfg : Settings) (rs : List Sample) (st0 : GameState)
    (evs : List Event) (cfg1 : Settings) (st1 : GameState) (rs1 : List Sample)
    (h : play cfg rs st0 evs = some (cfg1, st1, rs1)) :
    st1.food ∉ st1.snake := by
  refine play_invariant (fun st => st.food ∉ st.snake) ?_ ?_ cfg rs st0 evs cfg1 st1 rs1 h
  · intro c r s s1 r1 hres
    exact resetGame_food c r s s1 r1 hres
  · intro ev c r s c1 s1 r1 hP hst
    rcases step_cases ev c c1 r r1 s s1 hst with ⟨hres, _⟩ |
      ⟨_, h1 | ⟨_, h1⟩ | ⟨_, _, d, h1⟩ | ⟨_, _, hu⟩⟩
    · exact resetGame_food c1 r s s1 r1 hres
    · rw [h1]
      exact hP
    · rw [h1]
      exact hP
    · rw [h1]
      exact hP
    · rcases update_effects c r s s1 r1 hu with (h1 | h1) | ⟨nh, _, ⟨_, hoff, h1⟩ | ⟨hne, h1⟩⟩
      · rw [h1]
        exact hP
      · rw [h1]
        exact hP
      · have hsn : s1.snake = nh :: s.snake := by rw [h1]
        rw [hsn]
        exact hoff
      · rw [h1]
        intro hmem
        rcases List.mem_cons.mp hmem with hmem | hmem
        · exact hne hmem.symm
        · exact hP (List.dropLast_subset _ hmem)

/-- C19 on the sample game: the food (3,7) of its last state is no cell of its snake. -/
theorem food_never_on_snake_witness :
    play defaultSettings sampleDraws lostState sampleEvents =
      some (defaultSettings, sampleEnd, []) ∧
    sampleEnd.food ∉ sampleEnd.snake :=
  ⟨by decide,
   food_never_on_snake defaultSettings sampleDraws lostState sampleEvents defaultSettings
      sampleEnd [] (by decide)⟩

/-- C20: in every state reached from the load of the script by timer ticks, key events
(restarts by the space key among them) and saves of the menu, on any draws, the score is the
length of the snake minus one. -/
theorem score_is_length_minus_one (cfg : Settings) (rs : List Sample) (st0 : GameState)
    (evs : List Event) (cfg1 : Settings) (st1 : GameState) (rs1 : List Sample)
    (h : play cfg rs st0 evs = some (cfg1, st1, rs1)) :
    st1.score = (st1.snake.length : Int) - 1 := by
  refine play_invariant (fun st => st.score = (st.snake.length : Int) - 1) ?_ ?_
    cfg rs st0 evs cfg1 st1 rs1 h
  · intro c r s s1 r1 hres
    obtain ⟨hsn, _, hsc, _, _⟩ := resetGame_some c r s s1 r1 hres
    simp [hsn, hsc]
  · intro ev c r s c1 s1 r1 hP hst
    rcases step_cases ev c c1 r r1 s s1 hst with ⟨hres, _⟩ |
      ⟨_, h1 | ⟨_, h1⟩ | ⟨_, _, d, h1⟩ | ⟨_, _, hu⟩⟩
    · obtain ⟨hsn, _, hsc, _, _⟩ := resetGame_some c1 r s s1 r1 hres
      simp [hsn, hsc]
    · rw [h1]
      exact hP
    · rw [h1]
      exact hP
    · rw [h1]
      exact hP
    · rcases update_effects c r s s1 r1 hu with (h1 | h1) | ⟨nh, hne, ⟨_, _, h1⟩ | ⟨_, h1⟩⟩
      · rw [h1]
        exact hP
      · rw [h1]
        exact hP
      · have hsn : s1.snake = nh :: s.snake := by rw [h1]
        have hsc : s1.score = s.score + 1 := by rw [h1]
        simp only at hP
        rw [hsn, hsc, hP]
        simp
      · have hpos : 0 < s.snake.length := List.length_pos.mpr hne
        rw [h1]
        simp only [List.length_cons, List.length_dropLast] at hP ⊢
        rw [hP]
        omega

/-- C20 on the sample game: its last state has the score 1 and a snake of two cells. -/
theorem score_is_length_minus_one_witness :
    play defaultSettings sampleDraws lostState sampleEvents =
      some (defaultSettings, sampleEnd, []) ∧
    sampleEnd.score = (sampleEnd.snake.length : Int) - 1 :=
  ⟨by decide,
   score_is_length_minus_one defaultSettings sampleDraws lostState sampleEvents
      defaultSettings sampleEnd [] (by decide)⟩

end Snake
